import Mathlib

/-!
RLCM: the driver `GP_RLCM_NoNugget_Same_Field.cpp` and the unit test `Test_Chi2.cpp`

A shallow embedding of the Gaussian-process driver (validation of the loaded
data, train/test split, tree construction, grid search, finite-difference check,
Fisher information, kriging and the output files) together with the library
routines it calls.

Conventions of the embedding.

* `double` values are exact rationals (`ℚ`); every statement below is a
  statement of exact arithmetic, not of IEEE rounding.
* `INTEGER` values are mathematical integers (`Int`).  The type is declared in
  a header that is not among the sources; signed overflow is undefined in C++,
  so `INTEGER` arithmetic is only meaningful where it does not overflow.
* A `DVector` is a `List ℚ` (its `GetN()` is the length); a raw index array
  (`INTEGER *`) is a `List Nat` that is read with a default of `0`.
* The driver is a function from its inputs to the sequence of externally
  visible events (calls into the library, lines printed, files written) in
  program order; an early `return 0` ends the sequence.
* Library routines whose bodies are not among the sources are either modelled
  from the specification (marked so) or taken as parameters (`Env`, and the
  two-argument evaluation of the kernel object `Chi2`).
-/

namespace RLCM

/-! ## Library routines -/

/-- The macro `NUM_PARAM` of the driver. -/
def NUM_PARAM : Int := 3

/-- Store `src[i]` at position `Idx[i]` of `dst`, for `i = 0, ..., n-1` in this
order.  A store outside `dst` is dropped. -/
def scatter (Idx : List Nat) (src : List ℚ) (n : Nat) (dst : List ℚ) : List ℚ :=
  (List.range n).foldl (fun b i => b.set (Idx.getD i 0) (src.getD i 0)) dst

/-- Modelled from the spec: `DVector::GetBlock(Idx, n, out)` is declared in the
library headers, which are not among the sources.  It extracts the entries at
an index subset, the order of the subset indices preserved:
`out[i] = y[Idx[i]]` for `i < n`. -/
def GetBlock (y : List ℚ) (Idx : List Nat) (n : Nat) : List ℚ :=
  (List.range n).map (fun i => y.getD (Idx.getD i 0) 0)

/-- Modelled from the spec: `DVector::Permute(Perm, N)` is not among the
sources.  A permutation maps the original index to the tree-ordered index, so
the entry at original index `i` moves to position `Perm[i]`:
`b[Perm[i]] = a[i]` for `i < N`, written into a fresh vector of length `N`. -/
def Permute (Perm : List Nat) (N : Nat) (a : List ℚ) : List ℚ :=
  scatter Perm a N (List.replicate N 0)

/-- Modelled from the spec: `DVector::iPermute(Perm, N)` is not among the
sources.  It undoes `Permute`: `b[i] = a[Perm[i]]` for `i < N`. -/
def iPermute (Perm : List Nat) (N : Nat) (a : List ℚ) : List ℚ :=
  (List.range N).map (fun i => a.getD (Perm.getD i 0) 0)

/-- Modelled from the spec: `AssembleY(y1, y2, Idx1, Idx2, y_all)` is declared
in `GP_Common.hpp`, which is not among the sources.  The result has as many
entries as the two vectors together; entry `i` of the first vector is placed at
position `Idx1[i]` and entry `j` of the second at position `Idx2[j]`. -/
def AssembleY (y1 y2 : List ℚ) (Idx1 Idx2 : List Nat) : List ℚ :=
  scatter Idx2 y2 y2.length
    (scatter Idx1 y1 y1.length (List.replicate (y1.length + y2.length) 0))

/-- The index array `P` is a bijection of `[0, n)`: it has `n` entries, all
below `n`, no two equal. -/
def IsBijection (P : List Nat) (n : Nat) : Prop :=
  P.length = n ∧ (∀ x ∈ P, x < n) ∧ P.Nodup

instance (P : List Nat) (n : Nat) : Decidable (IsBijection P n) := by
  unfold IsBijection; infer_instance

/-! ## The chi-squared kernel (`Test_Chi2.cpp`) -/

/-- A `DPoint`: its coordinates. -/
abbrev DPoint := List ℚ

/-- The kernel object `Chi2 mKernel(s)`.  The class is not among the sources
(only its unit test is) and the spec gives no formula for the chi-squared
covariance, so the two-argument evaluation `Eval(x, y)` is a parameter of the
object; `s` is the scale it is constructed with. -/
structure Chi2 where
  s : ℚ
  Eval : DPoint → DPoint → ℚ

/-- Modelled from the spec: the nugget overload `Eval(x, y, lambda)` of the
class `Chi2`, which is not among the sources, adds `lambda` to the two-argument
evaluation only when the two points coincide. -/
def Chi2.EvalNugget (K : Chi2) (x y : DPoint) (lambda : ℚ) : ℚ :=
  if x = y then K.Eval x y + lambda else K.Eval x y

/-- Line 35 of `Test_Chi2.cpp`: the value `z_truth` the unit test compares
with. -/
def z_truth : ℚ := 923076923076923 / 1000000000000000

/-! ## Parameter estimation -/

/-- Modelled from the spec: `EstimatedParam(NumParam, ListLength, ListParam,
mLogLik, HatParam, MaxLogLik)` is declared in `GP_Common.hpp`, which is not
among the sources.  It scans the candidates in enumeration order and keeps the
maximiser, a later candidate replacing the current one only when its
log-likelihood is strictly larger.  The index kept by the scan. -/
def EstimatedParam.argmax (ListLength : Nat) (mLogLik : List ℚ) : Nat :=
  (List.range ListLength).foldl
    (fun idx t => if mLogLik.getD idx 0 < mLogLik.getD t 0 then t else idx) 0

/-- Modelled from the spec: the pair `(HatParam, MaxLogLik)` that
`EstimatedParam` returns: the first `NumParam` entries of the selected row of
`ListParam` and its log-likelihood. -/
def EstimatedParam (NumParam ListLength : Nat) (ListParam : List (List ℚ))
    (mLogLik : List ℚ) : List ℚ × ℚ :=
  let idx := EstimatedParam.argmax ListLength mLogLik
  ((ListParam.getD idx []).take NumParam, mLogLik.getD idx 0)

/-! ## Number of tree levels -/

/-- The integer `(INTEGER) log2(q)` in exact arithmetic: the base-2 logarithm
truncated toward zero, that is its floor when `q ≥ 1` and its ceiling when
`q < 1` (see `truncLog2_eq_trunc_logb`).  A zero or negative `q`, for which the
C++ conversion is undefined, gives `0`. -/
def truncLog2 (q : ℚ) : Int :=
  if 1 ≤ q then Int.log 2 q else Int.clog 2 q

/-- Line 223: `NumLevel = (INTEGER)log2((double)Ntrain/r)`. -/
def NumLevel (Ntrain r : Int) : Int :=
  truncLog2 ((Ntrain : ℚ) / (r : ℚ))

/-! ## The driver `GP_RLCM_NoNugget_Same_Field.cpp` -/

/-- The command line after parsing (lines 64-132); the file names are left
out. -/
structure Args where
  NumThreads : Int
  Num_alpha : Int
  List_alpha : List ℚ
  Num_ell : Int
  List_ell : List ℚ
  Num_nu : Int
  List_nu : List ℚ
  r : Int
  mDiagCorrect : ℚ
  sSeed : Int
  IsCheckFiniteDiff : Bool
  DiffStepSize : List ℚ
  OutputLogLik : Bool
  IsComputeFisher : Bool
  OutputFisher : Bool
  OutputKrigedRandomField : Bool
  OutputPredictions : Bool

/-- What `ReadRandomFieldInfo`, `ReadRandomField` and `ReadTrainTestSplit` load
from the files of the random field (lines 152-183). -/
structure Loaded where
  N : Int
  NumParam : Int
  Param : List ℚ
  y : List ℚ
  IdxTrain : List Nat
  Ntrain : Int
  IdxTest : List Nat
  Ntest : Int

/-- Routines of the library whose bodies are not among the sources and about
which nothing is claimed; the driver is verified for every choice of them.
The point sets and the matrix `Ktrain` are arguments of these routines that the
driver never inspects; they are left implicit.

* `now` is the value of `time(NULL)`;
* `BuildTree Ntrain r NumLevel mDiagCorrect Seed` is the array `PermXtrain`
  that `Ktrain.BuildTree` fills;
* `LogLik ytrain alpha ell nu lambda` is `mMLE.LogLik` for the kernel
  `IsotropicMatern(10^alpha, nu, ell)`;
* `Test ytrain alpha ell nu lambda` is the pair `(ytest_predict, ytest_stddev)`
  that `mKriging.Test` returns for that kernel. -/
structure Env where
  now : Nat
  BuildTree : Int → Int → Int → ℚ → Nat → List Nat
  LogLik : List ℚ → ℚ → ℚ → ℚ → ℚ → ℚ
  PrepareListParamForFisher : List ℚ → List ℚ → List (List ℚ)
  ComputeFisher : List (List ℚ) → List ℚ → List ℚ → ℚ → List ℚ →
    List (List ℚ) × List ℚ
  Test : List ℚ → ℚ → ℚ → ℚ → ℚ → List ℚ × List ℚ

/-- The externally visible steps of a run, in program order. -/
inductive Event where
  | ReadRandomFieldInfo
  | ReadRandomField
  | ReadTrainTestSplit
  | Printf (text : String) (args : List ℚ)
  | BuildTree (r NumLevel : Int) (mDiagCorrect : ℚ) (Seed : Nat)
  | LogLik (ytrain : List ℚ) (alpha ell nu lambda : ℚ)
  | WriteLogLikToFile (ListParam : List (List ℚ)) (mLogLik : List ℚ)
  | ComputeFisher (HatParam : List ℚ) (MaxLogLik : ℚ)
  | WriteFisherToFile (Fisher : List (List ℚ))
  | Train (alpha ell nu lambda : ℚ)
  | Test (ytrain : List ℚ) (alpha ell nu lambda : ℚ)
  | WriteRandomFieldToFile (y_all_grid_order HatParam : List ℚ)
  | WritePredictionsToFile (ytest ytest_predict ytest_stddev : List ℚ)
deriving DecidableEq

/-- The event builds the tree, evaluates a log-likelihood, computes the Fisher
matrix, trains or predicts, or writes an output file. -/
def Event.isResult : Event → Bool
  | .BuildTree _ _ _ _ => true
  | .LogLik _ _ _ _ _ => true
  | .WriteLogLikToFile _ _ => true
  | .ComputeFisher _ _ => true
  | .WriteFisherToFile _ => true
  | .Train _ _ _ _ => true
  | .Test _ _ _ _ _ => true
  | .WriteRandomFieldToFile _ _ => true
  | .WritePredictionsToFile _ _ _ => true
  | _ => false

/-- The diagonal correction an event is computed with, if it takes one. -/
def Event.lambda : Event → Option ℚ
  | .BuildTree _ _ l _ => some l
  | .LogLik _ _ _ _ l => some l
  | .Train _ _ _ l => some l
  | .Test _ _ _ _ l => some l
  | _ => none

/-- Lines 94-101: the seed of the random number generator, an `unsigned`. -/
def Seed (E : Env) (A : Args) : Nat :=
  if A.sSeed < 0 then E.now % 2 ^ 32 else A.sSeed.toNat % 2 ^ 32

/-- Line 198: `y.GetBlock(IdxTrain, Ntrain, ytrain)`. -/
def ytrain_extracted (D : Loaded) : List ℚ :=
  GetBlock D.y D.IdxTrain D.Ntrain.toNat

/-- Line 199: `y.GetBlock(IdxTest, Ntest, ytest)`. -/
def ytest (D : Loaded) : List ℚ :=
  GetBlock D.y D.IdxTest D.Ntest.toNat

/-- Lines 206-210: `Perm[i] = i` for `i < N`. -/
def Perm (D : Loaded) : List Nat :=
  List.range D.N.toNat

/-- Lines 221-225: the array `PermXtrain` after `Ktrain.BuildTree`. -/
def PermXtrain (E : Env) (A : Args) (D : Loaded) : List Nat :=
  E.BuildTree D.Ntrain A.r (NumLevel D.Ntrain A.r) A.mDiagCorrect (Seed E A)

/-- Line 229: `ytrain` after `ytrain.Permute(PermXtrain, Ntrain)`. -/
def ytrain (E : Env) (A : Args) (D : Loaded) : List ℚ :=
  Permute (PermXtrain E A D) D.Ntrain.toNat (ytrain_extracted D)

/-- Line 232: `ListLength = Num_alpha * Num_ell * Num_nu`. -/
def ListLength (A : Args) : Int :=
  A.Num_alpha * A.Num_ell * A.Num_nu

/-- The variables of the grid-search loop (lines 232-256): the counter `t`, the
arrays `ListParam` and `mLogLik`, the stores made so far (the index of the slot
stored to, whether or not it lies inside the arrays, and the row stored there,
in program order) and the events so far. -/
structure GridState where
  t : Nat
  ListParam : List (List ℚ)
  mLogLik : List ℚ
  stores : List (Nat × List ℚ)
  trace : List Event

/-- Lines 246-253: the body of the innermost loop. -/
def gridBody (E : Env) (ytrain : List ℚ) (lambda alpha ell nu : ℚ)
    (s : GridState) : GridState :=
  { t := s.t + 1
    ListParam := s.ListParam.set s.t [alpha, ell, nu]
    mLogLik := s.mLogLik.set s.t (E.LogLik ytrain alpha ell nu lambda)
    stores := s.stores ++ [(s.t, [alpha, ell, nu])]
    trace := s.trace ++
      [Event.LogLik ytrain alpha ell nu lambda,
       Event.Printf "MLE_RLCM: Grid search"
         [alpha, ell, nu, E.LogLik ytrain alpha ell nu lambda]] }

/-- Lines 232-239: the state before the loop; both arrays are allocated with
`ListLength` slots. -/
def gridInit (A : Args) : GridState :=
  { t := 0
    ListParam := List.replicate (ListLength A).toNat (List.replicate 3 0)
    mLogLik := List.replicate (ListLength A).toNat 0
    stores := []
    trace := [] }

/-- Lines 240-256: the three nested loops of the grid search. -/
def gridSearch (E : Env) (A : Args) (ytrain : List ℚ) (lambda : ℚ) : GridState :=
  (List.range A.Num_alpha.toNat).foldl
    (fun s i =>
      (List.range A.Num_ell.toNat).foldl
        (fun s j =>
          (List.range A.Num_nu.toNat).foldl
            (fun s k =>
              gridBody E ytrain lambda (A.List_alpha.getD i 0) (A.List_ell.getD j 0)
                (A.List_nu.getD k 0) s)
            s)
        s)
    (gridInit A)

/-- The candidates in the order in which the three nested loops visit them. -/
def candidates (A : Args) : List (ℚ × ℚ × ℚ) :=
  (List.range A.Num_alpha.toNat).flatMap fun i =>
    (List.range A.Num_ell.toNat).flatMap fun j =>
      (List.range A.Num_nu.toNat).map fun k =>
        (A.List_alpha.getD i 0, A.List_ell.getD j 0, A.List_nu.getD k 0)

/-- Lines 260-263: the pair `(HatParam, MaxLogLik)`. -/
def estimate (E : Env) (A : Args) (D : Loaded) : List ℚ × ℚ :=
  EstimatedParam NUM_PARAM.toNat (ListLength A).toNat
    (gridSearch E A (ytrain E A D) A.mDiagCorrect).ListParam
    (gridSearch E A (ytrain E A D) A.mDiagCorrect).mLogLik

/-- The estimate `HatParam`. -/
def HatParam (E : Env) (A : Args) (D : Loaded) : List ℚ :=
  (estimate E A D).1

/-- The largest log-likelihood `MaxLogLik`. -/
def MaxLogLik (E : Env) (A : Args) (D : Loaded) : ℚ :=
  (estimate E A D).2

/-- Line 289: `epsilon = delta / pow(fac, j)` with `delta = 1e-3`, `fac = 2`. -/
def stepSize (j : Nat) : ℚ :=
  (1 / 1000) / (2 : ℚ) ^ j

/-- Lines 287-290 and 298-299: a copy of `HatParam` with `h` added to entry
`i`. -/
def CenterParam (HatParam : List ℚ) (i : Nat) (h : ℚ) : List ℚ :=
  HatParam.set i (HatParam.getD i 0 + h)

/-- Lines 287-309: one row `(epsilon, FirstDiff, SecondDiff)` of the
finite-difference table, for the log-likelihood `L` as a function of
`(alpha, ell, nu)`. -/
def finiteDiffRow (L : ℚ → ℚ → ℚ → ℚ) (HatParam : List ℚ) (MaxLogLik : ℚ)
    (i j : Nat) : ℚ × ℚ × ℚ :=
  let epsilon := stepSize j
  let Cp := CenterParam HatParam i epsilon
  let mLogLikp := L (Cp.getD 0 0) (Cp.getD 1 0) (Cp.getD 2 0)
  let Cm := CenterParam HatParam i (-epsilon)
  let mLogLikm := L (Cm.getD 0 0) (Cm.getD 1 0) (Cm.getD 2 0)
  (epsilon,
   (mLogLikp - mLogLikm) / (2 * epsilon),
   (mLogLikp + mLogLikm - 2 * MaxLogLik) / (epsilon * epsilon))

/-- A quadratic polynomial in the three parameters, given by its ten
coefficients. -/
def quadratic (c b0 b1 b2 q00 q01 q02 q11 q12 q22 : ℚ) (a e n : ℚ) : ℚ :=
  c + b0 * a + b1 * e + b2 * n + q00 * a * a + q01 * a * e + q02 * a * n
    + q11 * e * e + q12 * e * n + q22 * n * n

/-- The function `L` along axis `i` through the point `(h0, h1, h2)`:
coordinate `i` is replaced by `t`. -/
def alongAxis (L : ℚ → ℚ → ℚ → ℚ) (h0 h1 h2 : ℚ) (i : Nat) (t : ℚ) : ℚ :=
  L (if i = 0 then t else h0) (if i = 1 then t else h1) (if i = 2 then t else h2)

/-- Lines 277-315: the finite-difference check, three parameters and ten
steps each. -/
def finiteDiff (E : Env) (ytrain : List ℚ) (lambda : ℚ) (HatParam : List ℚ)
    (MaxLogLik : ℚ) : List Event :=
  (List.range NUM_PARAM.toNat).flatMap fun i =>
    [Event.Printf "Numerical differentiation for param" [(i : ℚ)],
     Event.Printf "Step size, First difference, Second difference" []] ++
    (List.range 10).flatMap fun j =>
      [Event.LogLik ytrain
         ((CenterParam HatParam i (stepSize j)).getD 0 0)
         ((CenterParam HatParam i (stepSize j)).getD 1 0)
         ((CenterParam HatParam i (stepSize j)).getD 2 0) lambda,
       Event.LogLik ytrain
         ((CenterParam HatParam i (-stepSize j)).getD 0 0)
         ((CenterParam HatParam i (-stepSize j)).getD 1 0)
         ((CenterParam HatParam i (-stepSize j)).getD 2 0) lambda,
       Event.Printf "epsilon, FirstDiff, SecondDiff"
         [(finiteDiffRow (fun a e n => E.LogLik ytrain a e n lambda)
             HatParam MaxLogLik i j).1,
          (finiteDiffRow (fun a e n => E.LogLik ytrain a e n lambda)
             HatParam MaxLogLik i j).2.1,
          (finiteDiffRow (fun a e n => E.LogLik ytrain a e n lambda)
             HatParam MaxLogLik i j).2.2]]

/-- Line 320: `ListLength2 = 2 * NUM_PARAM + 4 * NUM_PARAM*(NUM_PARAM-1)/2`. -/
def ListLength2 : Int :=
  2 * NUM_PARAM + 4 * NUM_PARAM * (NUM_PARAM - 1) / 2

/-- Lines 329-334: the log-likelihood at row `i` of `ListParam2`. -/
def fisherLogLik (E : Env) (ytrain : List ℚ) (lambda : ℚ) (ListParam2 : List (List ℚ))
    (i : Nat) : ℚ :=
  E.LogLik ytrain ((ListParam2.getD i []).getD 0 0) ((ListParam2.getD i []).getD 1 0)
    ((ListParam2.getD i []).getD 2 0) lambda

/-- Lines 318-353: the Fisher information. -/
def fisher (E : Env) (A : Args) (ytrain : List ℚ) (lambda : ℚ)
    (HatParam : List ℚ) (MaxLogLik : ℚ) : List Event :=
  let ListParam2 := E.PrepareListParamForFisher HatParam A.DiffStepSize
  let mLogLik2 := (List.range ListLength2.toNat).map (fisherLogLik E ytrain lambda ListParam2)
  ((List.range ListLength2.toNat).flatMap fun i =>
      [Event.LogLik ytrain ((ListParam2.getD i []).getD 0 0)
         ((ListParam2.getD i []).getD 1 0) ((ListParam2.getD i []).getD 2 0) lambda,
       Event.Printf "MLE_RLCM: Fisher info"
         [(ListParam2.getD i []).getD 0 0, (ListParam2.getD i []).getD 1 0,
          (ListParam2.getD i []).getD 2 0, fisherLogLik E ytrain lambda ListParam2 i]]) ++
    [Event.ComputeFisher HatParam MaxLogLik,
     Event.Printf "GP_RLCM_NoNugget_Same_Field: Stderr"
       (E.ComputeFisher ListParam2 mLogLik2 HatParam MaxLogLik A.DiffStepSize).2] ++
    (if A.OutputFisher then
      [Event.WriteFisherToFile
        (E.ComputeFisher ListParam2 mLogLik2 HatParam MaxLogLik A.DiffStepSize).1]
     else [])

/-- Lines 356-363: the pair `(ytest_predict, ytest_stddev)`. -/
def predict (E : Env) (A : Args) (D : Loaded) : List ℚ × List ℚ :=
  E.Test (ytrain E A D) ((HatParam E A D).getD 0 0) ((HatParam E A D).getD 1 0)
    ((HatParam E A D).getD 2 0) A.mDiagCorrect

/-- The predictions `ytest_predict`. -/
def ytest_predict (E : Env) (A : Args) (D : Loaded) : List ℚ :=
  (predict E A D).1

/-- Lines 370-371: `ytrain_recover_order`, a copy of `ytrain` after
`iPermute(PermXtrain, Ntrain)`. -/
def ytrain_recover_order (E : Env) (A : Args) (D : Loaded) : List ℚ :=
  iPermute (PermXtrain E A D) D.Ntrain.toNat (ytrain E A D)

/-- Lines 372-373: `y_all`. -/
def y_all (E : Env) (A : Args) (D : Loaded) : List ℚ :=
  AssembleY (ytrain_recover_order E A D) (ytest_predict E A D) D.IdxTrain D.IdxTest

/-- Lines 374-375: `y_all_grid_order`, a copy of `y_all` after
`iPermute(Perm, N)`. -/
def y_all_grid_order (E : Env) (A : Args) (D : Loaded) : List ℚ :=
  iPermute (Perm D) D.N.toNat (y_all E A D)

/-- Lines 189-389: the run after the three checks have passed.  The variable
`lambda` of line 213 is `mDiagCorrect`; the times printed are left out. -/
def compute (E : Env) (A : Args) (D : Loaded) : List Event :=
  [Event.BuildTree A.r (NumLevel D.Ntrain A.r) A.mDiagCorrect (Seed E A)] ++
  (gridSearch E A (ytrain E A D) A.mDiagCorrect).trace ++
  [Event.Printf "GP_RLCM_NoNugget_Same_Field: Truth"
     [D.Param.getD 0 0, D.Param.getD 1 0, D.Param.getD 2 0],
   Event.Printf "GP_RLCM_NoNugget_Same_Field: Estimated"
     [(HatParam E A D).getD 0 0, (HatParam E A D).getD 1 0, (HatParam E A D).getD 2 0,
      MaxLogLik E A D]] ++
  (if A.OutputLogLik then
    [Event.WriteLogLikToFile
      (gridSearch E A (ytrain E A D) A.mDiagCorrect).ListParam
      (gridSearch E A (ytrain E A D) A.mDiagCorrect).mLogLik]
   else []) ++
  (if A.IsCheckFiniteDiff then
    finiteDiff E (ytrain E A D) A.mDiagCorrect (HatParam E A D) (MaxLogLik E A D)
   else []) ++
  (if A.IsComputeFisher then
    fisher E A (ytrain E A D) A.mDiagCorrect (HatParam E A D) (MaxLogLik E A D)
   else []) ++
  [Event.Train ((HatParam E A D).getD 0 0) ((HatParam E A D).getD 1 0)
     ((HatParam E A D).getD 2 0) A.mDiagCorrect,
   Event.Test (ytrain E A D) ((HatParam E A D).getD 0 0) ((HatParam E A D).getD 1 0)
     ((HatParam E A D).getD 2 0) A.mDiagCorrect,
   Event.Printf "GP_RLCM_NoNugget_Same_Field: Kriging time" []] ++
  (if A.OutputKrigedRandomField then
    [Event.WriteRandomFieldToFile (y_all_grid_order E A D) (HatParam E A D)]
   else []) ++
  (if A.OutputPredictions then
    [Event.WritePredictionsToFile (ytest D) (ytest_predict E A D) (predict E A D).2]
   else [])

/-- The driver `main` from line 152 on: the three loads, each followed by its
check and an early `return 0`, then the computation. -/
def main (E : Env) (A : Args) (D : Loaded) : List Event :=
  Event.ReadRandomFieldInfo ::
    if D.NumParam ≠ NUM_PARAM then
      [Event.Printf "GP_RLCM_NoNugget_Same_Field: Error in number of parameters!" []]
    else
      Event.ReadRandomField ::
        if (D.y.length : Int) ≠ D.N then
          [Event.Printf "GP_RLCM_NoNugget_Same_Field: Error in loading random field!" []]
        else
          Event.ReadTrainTestSplit ::
            if D.Ntrain + D.Ntest ≠ D.N then
              [Event.Printf
                "GP_RLCM_NoNugget_Same_Field: Error in loading train/test split!" []]
            else
              compute E A D

/-! ## Sample inputs -/

/-- A sample environment: the tree swaps the two training points, the
log-likelihood of a candidate is its `nu`, one prediction is returned. -/
def sampleEnv : Env :=
  { now := 0
    BuildTree := fun _ _ _ _ _ => [1, 0]
    LogLik := fun _ _ _ nu _ => nu
    PrepareListParamForFisher := fun _ _ => []
    ComputeFisher := fun _ _ _ _ _ => ([], [])
    Test := fun _ _ _ _ _ => ([7], [0]) }

/-- A sample command line: a `2 x 1 x 2` grid, rank `2`, `DiagCorrect = -1`. -/
def sampleArgs : Args :=
  { NumThreads := 1
    Num_alpha := 2
    List_alpha := [1, 0]
    Num_ell := 1
    List_ell := [0]
    Num_nu := 2
    List_nu := [0, 1]
    r := 2
    mDiagCorrect := -1
    sSeed := 5
    IsCheckFiniteDiff := false
    DiffStepSize := [1, 1, 1]
    OutputLogLik := true
    IsComputeFisher := false
    OutputFisher := false
    OutputKrigedRandomField := true
    OutputPredictions := true }

/-- A sample random field: three points, two for training and one for
testing. -/
def sampleData : Loaded :=
  { N := 3
    NumParam := 3
    Param := [0, 0, 0]
    y := [10, 20, 30]
    IdxTrain := [2, 0]
    Ntrain := 2
    IdxTest := [1]
    Ntest := 1 }

/-- A sample kernel object with the scale `s = 2` of the unit test; its
two-argument evaluation returns the value `z_truth` that the unit test
expects. -/
def sampleChi2 : Chi2 :=
  { s := 2
    Eval := fun _ _ => z_truth }

/-- The sample random field with a wrong parameter count. -/
def sampleBadData : Loaded :=
  { sampleData with NumParam := 2 }

/-! ## Theorems -/

/-! ### The vector operations (C1) -/

theorem scatter_succ (Idx : List Nat) (src : List ℚ) (n : Nat) (dst : List ℚ) :
    scatter Idx src (n + 1) dst
      = (scatter Idx src n dst).set (Idx.getD n 0) (src.getD n 0) := by
  simp [scatter, List.range_succ, List.foldl_append]

theorem scatter_length (Idx : List Nat) (src : List ℚ) (n : Nat) (dst : List ℚ) :
    (scatter Idx src n dst).length = dst.length := by
  induction n with
  | zero => simp [scatter]
  | succ n ih => rw [scatter_succ, List.length_set, ih]

/-- A position that no store goes to keeps its value. -/
theorem scatter_getElem?_of_ne (Idx : List Nat) (src : List ℚ) (n : Nat) (dst : List ℚ)
    (k : Nat) (h : ∀ i, i < n → Idx.getD i 0 ≠ k) :
    (scatter Idx src n dst)[k]? = dst[k]? := by
  induction n with
  | zero => simp [scatter]
  | succ n ih =>
    rw [scatter_succ, List.getElem?_set]
    have h1 : Idx.getD n 0 ≠ k := h n (Nat.lt_succ_self n)
    rw [if_neg h1]
    exact ih (fun i hi => h i (Nat.lt_succ_of_lt hi))

/-- When the first `n` indices are pairwise different and inside `dst`,
position `Idx[i]` holds `src[i]` afterwards. -/
theorem scatter_getElem?_of_inj (Idx : List Nat) (src : List ℚ) (n : Nat) (dst : List ℚ)
    (hinj : ∀ i j, i < n → j < n → Idx.getD i 0 = Idx.getD j 0 → i = j)
    (hlt : ∀ i, i < n → Idx.getD i 0 < dst.length)
    (i : Nat) (hi : i < n) :
    (scatter Idx src n dst)[Idx.getD i 0]? = some (src.getD i 0) := by
  induction n with
  | zero => omega
  | succ n ih =>
    rw [scatter_succ, List.getElem?_set]
    by_cases hin : i = n
    · subst hin
      rw [if_pos rfl, if_pos]
      rw [scatter_length]
      exact hlt i hi
    · have hi2 : i < n := by omega
      have hne : Idx.getD n 0 ≠ Idx.getD i 0 := by
        intro h
        have := hinj n i (Nat.lt_succ_self n) hi h
        omega
      rw [if_neg hne]
      exact ih (fun a b ha hb => hinj a b (Nat.lt_succ_of_lt ha) (Nat.lt_succ_of_lt hb))
        (fun a ha => hlt a (Nat.lt_succ_of_lt ha)) hi2

theorem getD_inj_of_nodup {P : List Nat} (hnd : P.Nodup) :
    ∀ i j, i < P.length → j < P.length → P.getD i 0 = P.getD j 0 → i = j := by
  intro i j hi hj hij
  rw [List.getD_eq_getElem _ _ hi, List.getD_eq_getElem _ _ hj] at hij
  exact (List.Nodup.getElem_inj_iff hnd).1 hij

theorem IsBijection.inj {P : List Nat} {n : Nat} (h : IsBijection P n) :
    ∀ i j, i < n → j < n → P.getD i 0 = P.getD j 0 → i = j := by
  obtain ⟨hl, _, hnd⟩ := h
  subst hl
  exact getD_inj_of_nodup hnd

theorem IsBijection.lt {P : List Nat} {n : Nat} (h : IsBijection P n) :
    ∀ i, i < n → P.getD i 0 < n := by
  intro i hi
  obtain ⟨hl, hb, _⟩ := h
  subst hl
  rw [List.getD_eq_getElem _ _ hi]
  exact hb _ (List.getElem_mem _)

theorem iPermute_Permute (P : List Nat) (n : Nat) (v : List ℚ)
    (hP : IsBijection P n) (hv : v.length = n) :
    iPermute P n (Permute P n v) = v := by
  apply List.ext_getElem
  · simp [iPermute, hv]
  · intro i h1 h2
    have hi : i < n := by simpa [iPermute] using h1
    simp only [iPermute, List.getElem_map, List.getElem_range]
    rw [List.getD_eq_getElem?_getD, Permute,
      scatter_getElem?_of_inj P v n _ hP.inj (by simpa using hP.lt) i hi]
    simp [List.getElem?_eq_getElem h2]

theorem GetBlock_length (y : List ℚ) (Idx : List Nat) (n : Nat) :
    (GetBlock y Idx n).length = n := by
  simp [GetBlock]

theorem ytrain_recover_order_eq (E : Env) (A : Args) (D : Loaded)
    (hX : IsBijection (PermXtrain E A D) D.Ntrain.toNat) :
    ytrain_recover_order E A D = ytrain_extracted D := by
  unfold ytrain_recover_order ytrain
  exact iPermute_Permute _ _ _ hX (GetBlock_length _ _ _)

/-- C1: for every length `n`, every bijection `P` of `[0, n)` and every vector
`v` of length `n`, `iPermute(P, n)` applied to the result of `Permute(P, n)` on
`v` gives back `v`; in the driver, whenever `PermXtrain` is a bijection of
`[0, Ntrain)`, `ytrain_recover_order` (line 371) equals the `ytrain` extracted
by `GetBlock` (line 198). -/
theorem Permute_iPermute_roundtrip (P : List Nat) (n : Nat) (v : List ℚ)
    (hP : IsBijection P n) (hv : v.length = n)
    (E : Env) (A : Args) (D : Loaded)
    (hX : IsBijection (PermXtrain E A D) D.Ntrain.toNat) :
    iPermute P n (Permute P n v) = v
      ∧ ytrain_recover_order E A D = ytrain_extracted D
      ∧ ytrain_recover_order E A D
          = iPermute (PermXtrain E A D) D.Ntrain.toNat
              (Permute (PermXtrain E A D) D.Ntrain.toNat
                (GetBlock D.y D.IdxTrain D.Ntrain.toNat)) :=
  ⟨iPermute_Permute P n v hP hv, ytrain_recover_order_eq E A D hX, rfl⟩

/-- Witness of C1: a rotation of three entries, and the sample run. -/
theorem Permute_iPermute_roundtrip_witness :
    IsBijection [2, 0, 1] 3 ∧ ([10, 20, 30] : List ℚ).length = 3
      ∧ IsBijection (PermXtrain sampleEnv sampleArgs sampleData) sampleData.Ntrain.toNat
      ∧ iPermute [2, 0, 1] 3 (Permute [2, 0, 1] 3 [10, 20, 30]) = [10, 20, 30]
      ∧ ytrain_recover_order sampleEnv sampleArgs sampleData = ytrain_extracted sampleData :=
  ⟨by decide, rfl, by decide,
    (Permute_iPermute_roundtrip [2, 0, 1] 3 [10, 20, 30] (by decide) rfl
      sampleEnv sampleArgs sampleData (by decide)).1,
    (Permute_iPermute_roundtrip [2, 0, 1] 3 [10, 20, 30] (by decide) rfl
      sampleEnv sampleArgs sampleData (by decide)).2.1⟩

/-! ### The nugget overload of the chi-squared kernel (C2) -/

/-- C2: for every scale, every two-argument evaluation, every pair of points
of equal dimension and every nugget `lambda`, `Eval(x, y, lambda)` is
`Eval(x, y)` when `x ≠ y` and `Eval(x, y) + lambda` when `x = y`; at the input of
the unit test (`s = 2`, `lambda = 0.1`, `x ≠ y`) the three-argument and
two-argument calls agree. -/
theorem Chi2_EvalNugget_spec (K : Chi2) (x y : DPoint) (lambda : ℚ)
    (_hlen : x.length = y.length) :
    (x ≠ y → K.EvalNugget x y lambda = K.Eval x y)
      ∧ (x = y → K.EvalNugget x y lambda = K.Eval x y + lambda)
      ∧ (Chi2.mk 2 K.Eval).EvalNugget [0, 0, 4/10, 3/10] [0, 1/10, 0, 1] (1/10)
          = (Chi2.mk 2 K.Eval).Eval [0, 0, 4/10, 3/10] [0, 1/10, 0, 1] := by
  refine ⟨?_, ?_, ?_⟩
  · intro h
    rw [Chi2.EvalNugget, if_neg h]
  · intro h
    rw [Chi2.EvalNugget, if_pos h]
  · rw [Chi2.EvalNugget, if_neg]
    simp

/-- Witness of C2 at the input of the unit test. -/
theorem Chi2_EvalNugget_spec_witness :
    ([0, 0, 4/10, 3/10] : DPoint).length = ([0, 1/10, 0, 1] : DPoint).length
      ∧ (([0, 0, 4/10, 3/10] : DPoint) ≠ [0, 1/10, 0, 1] →
        sampleChi2.EvalNugget [0, 0, 4/10, 3/10] [0, 1/10, 0, 1] (1/10)
          = sampleChi2.Eval [0, 0, 4/10, 3/10] [0, 1/10, 0, 1])
      ∧ (([0, 0, 4/10, 3/10] : DPoint) = [0, 1/10, 0, 1] →
        sampleChi2.EvalNugget [0, 0, 4/10, 3/10] [0, 1/10, 0, 1] (1/10)
          = sampleChi2.Eval [0, 0, 4/10, 3/10] [0, 1/10, 0, 1] + 1/10)
      ∧ (Chi2.mk 2 sampleChi2.Eval).EvalNugget [0, 0, 4/10, 3/10] [0, 1/10, 0, 1] (1/10)
          = (Chi2.mk 2 sampleChi2.Eval).Eval [0, 0, 4/10, 3/10] [0, 1/10, 0, 1] :=
  ⟨rfl, Chi2_EvalNugget_spec sampleChi2 [0, 0, 4/10, 3/10] [0, 1/10, 0, 1] (1/10) rfl⟩

/-! ### The checks on the loaded data (C4) -/

/-- C4: if the loaded parameter count differs from `NUM_PARAM = 3`, or the
response vector's length differs from `N`, or `Ntrain + Ntest` differs from
`N`, the run consists of the loads made so far followed by one error line and
nothing else: no tree is built, no log-likelihood is evaluated and no output
file is written; when all three checks pass the run goes on to `BuildTree`. -/
theorem main_validation (E : Env) (A : Args) (D : Loaded) :
    (D.NumParam ≠ 3 →
        main E A D = [Event.ReadRandomFieldInfo,
          Event.Printf "GP_RLCM_NoNugget_Same_Field: Error in number of parameters!" []])
      ∧ (D.NumParam = 3 → (D.y.length : Int) ≠ D.N →
        main E A D = [Event.ReadRandomFieldInfo, Event.ReadRandomField,
          Event.Printf "GP_RLCM_NoNugget_Same_Field: Error in loading random field!" []])
      ∧ (D.NumParam = 3 → (D.y.length : Int) = D.N → D.Ntrain + D.Ntest ≠ D.N →
        main E A D = [Event.ReadRandomFieldInfo, Event.ReadRandomField,
          Event.ReadTrainTestSplit,
          Event.Printf "GP_RLCM_NoNugget_Same_Field: Error in loading train/test split!" []])
      ∧ (D.NumParam ≠ 3 ∨ (D.y.length : Int) ≠ D.N ∨ D.Ntrain + D.Ntest ≠ D.N →
        (∀ e ∈ main E A D, e.isResult = false)
          ∧ ∃ msg, (main E A D).getLast? = some (Event.Printf msg []))
      ∧ (D.NumParam = 3 → (D.y.length : Int) = D.N → D.Ntrain + D.Ntest = D.N →
        main E A D = [Event.ReadRandomFieldInfo, Event.ReadRandomField,
          Event.ReadTrainTestSplit] ++ compute E A D
        ∧ Event.BuildTree A.r (NumLevel D.Ntrain A.r) A.mDiagCorrect (Seed E A)
            ∈ main E A D) := by
  refine ⟨?_, ?_, ?_, ?_, ?_⟩
  · intro h1
    simp [main, NUM_PARAM, h1]
  · intro h1 h2
    simp [main, NUM_PARAM, h1, h2]
  · intro h1 h2 h3
    simp [main, NUM_PARAM, h1, h2, h3]
  · intro h
    by_cases h1 : D.NumParam = 3
    · by_cases h2 : (D.y.length : Int) = D.N
      · have h3 : D.Ntrain + D.Ntest ≠ D.N := by
          rcases h with h | h | h
          · exact absurd h1 h
          · exact absurd h2 h
          · exact h
        simp [main, NUM_PARAM, h1, h2, h3, Event.isResult]
      · simp [main, NUM_PARAM, h1, h2, Event.isResult]
    · simp [main, NUM_PARAM, h1, Event.isResult]
  · intro h1 h2 h3
    simp [main, NUM_PARAM, h1, h2, h3, compute]

/-- Witness of C4: the sample run with a wrong parameter count stops after the
error line, and the sample run with the right one builds the tree. -/
theorem main_validation_witness :
    sampleBadData.NumParam ≠ 3
      ∧ main sampleEnv sampleArgs sampleBadData = [Event.ReadRandomFieldInfo,
          Event.Printf "GP_RLCM_NoNugget_Same_Field: Error in number of parameters!" []]
      ∧ Event.BuildTree sampleArgs.r (NumLevel sampleData.Ntrain sampleArgs.r)
          sampleArgs.mDiagCorrect (Seed sampleEnv sampleArgs)
            ∈ main sampleEnv sampleArgs sampleData :=
  ⟨by decide, (main_validation sampleEnv sampleArgs sampleBadData).1 (by decide),
    ((main_validation sampleEnv sampleArgs sampleData).2.2.2.2 rfl rfl rfl).2⟩

theorem main_eq_compute (E : Env) (A : Args) (D : Loaded)
    (h1 : D.NumParam = 3) (h2 : (D.y.length : Int) = D.N) (h3 : D.Ntrain + D.Ntest = D.N) :
    main E A D = [Event.ReadRandomFieldInfo, Event.ReadRandomField,
      Event.ReadTrainTestSplit] ++ compute E A D := by
  simp [main, NUM_PARAM, h1, h2, h3]

theorem mem_main_of_mem_compute (E : Env) (A : Args) (D : Loaded)
    (h1 : D.NumParam = 3) (h2 : (D.y.length : Int) = D.N) (h3 : D.Ntrain + D.Ntest = D.N)
    (e : Event) (he : e ∈ compute E A D) : e ∈ main E A D := by
  rw [main_eq_compute E A D h1 h2 h3]
  exact List.mem_append_right _ he

/-! ### The grid search (C8) -/

theorem foldl_flatMap_eq {α β γ : Type} (f : α → List β) (g : γ → β → γ) (l : List α) (s : γ) :
    (l.flatMap f).foldl g s = l.foldl (fun s x => (f x).foldl g s) s := by
  induction l generalizing s with
  | nil => rfl
  | cons a l ih => simp [List.flatMap_cons, List.foldl_append, ih]

theorem gridSearch_eq_foldl (E : Env) (A : Args) (ytrain : List ℚ) (lambda : ℚ) :
    gridSearch E A ytrain lambda
      = (candidates A).foldl (fun s c => gridBody E ytrain lambda c.1 c.2.1 c.2.2 s)
          (gridInit A) := by
  simp only [gridSearch, candidates, foldl_flatMap_eq, List.foldl_map]

/-- The state after the loop body has run over the candidates `cs` from the
state `s`. -/
theorem gridBody_foldl (E : Env) (ytrain : List ℚ) (lambda : ℚ) (cs : List (ℚ × ℚ × ℚ))
    (s : GridState) :
    (cs.foldl (fun s c => gridBody E ytrain lambda c.1 c.2.1 c.2.2 s) s).t
        = s.t + cs.length
      ∧ (cs.foldl (fun s c => gridBody E ytrain lambda c.1 c.2.1 c.2.2 s) s).stores
        = s.stores ++ (List.range cs.length).map
            (fun n => (s.t + n,
              [(cs.getD n (0, 0, 0)).1, (cs.getD n (0, 0, 0)).2.1, (cs.getD n (0, 0, 0)).2.2]))
      ∧ (cs.foldl (fun s c => gridBody E ytrain lambda c.1 c.2.1 c.2.2 s) s).trace
        = s.trace ++ cs.flatMap (fun c =>
            [Event.LogLik ytrain c.1 c.2.1 c.2.2 lambda,
             Event.Printf "MLE_RLCM: Grid search"
               [c.1, c.2.1, c.2.2, E.LogLik ytrain c.1 c.2.1 c.2.2 lambda]])
      ∧ (cs.foldl (fun s c => gridBody E ytrain lambda c.1 c.2.1 c.2.2 s) s).ListParam.length
        = s.ListParam.length
      ∧ (cs.foldl (fun s c => gridBody E ytrain lambda c.1 c.2.1 c.2.2 s) s).mLogLik.length
        = s.mLogLik.length := by
  induction cs using List.reverseRecOn with
  | nil => simp
  | append_singleton cs c ih =>
    rw [List.foldl_append]
    simp only [List.foldl_cons, List.foldl_nil]
    generalize List.foldl (fun s c => gridBody E ytrain lambda c.1 c.2.1 c.2.2 s) s cs = p
      at ih ⊢
    obtain ⟨h1, h2, h3, h4, h5⟩ := ih
    simp only [gridBody, List.length_append, List.length_singleton, List.length_set]
    refine ⟨by rw [h1]; omega, ?_, ?_, h4, h5⟩
    · rw [h2, h1, List.range_succ, List.map_append, List.append_assoc]
      congr 1
      congr 1
      · apply List.map_congr_left
        intro n hn
        have hn2 : n < cs.length := List.mem_range.1 hn
        simp [List.getD_eq_getElem?_getD, List.getElem?_append_left hn2]
      · simp [List.getD_append_right]
    · rw [h3]
      simp [List.flatMap_append]

/-- The arrays after the loop body has run over the candidates `cs` from the
state `s`. -/
theorem gridBody_foldl_arrays (E : Env) (ytrain : List ℚ) (lambda : ℚ)
    (cs : List (ℚ × ℚ × ℚ)) (s : GridState) (k : Nat) :
    (cs.foldl (fun s c => gridBody E ytrain lambda c.1 c.2.1 c.2.2 s) s).ListParam[k]?
        = (if s.t ≤ k ∧ k < s.t + cs.length ∧ k < s.ListParam.length then
            some [(cs.getD (k - s.t) (0, 0, 0)).1, (cs.getD (k - s.t) (0, 0, 0)).2.1,
              (cs.getD (k - s.t) (0, 0, 0)).2.2]
           else s.ListParam[k]?)
      ∧ (cs.foldl (fun s c => gridBody E ytrain lambda c.1 c.2.1 c.2.2 s) s).mLogLik[k]?
        = (if s.t ≤ k ∧ k < s.t + cs.length ∧ k < s.mLogLik.length then
            some (E.LogLik ytrain (cs.getD (k - s.t) (0, 0, 0)).1
              (cs.getD (k - s.t) (0, 0, 0)).2.1 (cs.getD (k - s.t) (0, 0, 0)).2.2 lambda)
           else s.mLogLik[k]?) := by
  induction cs using List.reverseRecOn with
  | nil =>
    simp only [List.foldl_nil, List.length_nil, Nat.add_zero]
    constructor <;> rw [if_neg (by omega)]
  | append_singleton cs c ih =>
    have hst := gridBody_foldl E ytrain lambda cs s
    rw [List.foldl_append]
    simp only [List.foldl_cons, List.foldl_nil]
    generalize List.foldl (fun s c => gridBody E ytrain lambda c.1 c.2.1 c.2.2 s) s cs = p
      at ih hst ⊢
    obtain ⟨h1, _, _, h4, h5⟩ := hst
    obtain ⟨ihP, ihL⟩ := ih
    simp only [gridBody, List.getElem?_set, List.length_append, List.length_singleton]
    rw [ihP, ihL, h1, h4, h5]
    by_cases hk : s.t + cs.length = k
    · subst hk
      simp [List.getD_append_right]
      constructor
      · split_ifs with h
        · rfl
        · exact (List.getElem?_eq_none (Nat.le_of_not_lt h)).symm
      · split_ifs with h
        · rfl
        · exact (List.getElem?_eq_none (Nat.le_of_not_lt h)).symm
    · simp only [if_neg hk]
      by_cases hlt : k < s.t + cs.length
      · by_cases hle : s.t ≤ k
        · have hidx : k - s.t < cs.length := by omega
          have hlt2 : k < s.t + (cs.length + 1) := by omega
          simp [hlt, hle, hlt2, List.getD_eq_getElem?_getD, List.getElem?_append_left hidx]
        · simp [hle]
      · have hlt2 : ¬ k < s.t + (cs.length + 1) := by omega
        simp [hlt, hlt2]

theorem flatMap_range_length {β : Type} (g : Nat → List β) (m : Nat)
    (hg : ∀ i, (g i).length = m) (a : Nat) :
    ((List.range a).flatMap g).length = a * m := by
  induction a with
  | zero => simp
  | succ a ih =>
    rw [List.range_succ, List.flatMap_append, List.length_append, ih]
    simp [hg, Nat.succ_mul]

theorem flatMap_range_getElem? {β : Type} (g : Nat → List β) (m : Nat)
    (hg : ∀ i, (g i).length = m) (a i j : Nat) (hi : i < a) (hj : j < m) :
    ((List.range a).flatMap g)[i * m + j]? = (g i)[j]? := by
  induction a with
  | zero => omega
  | succ a ih =>
    rw [List.range_succ, List.flatMap_append]
    have hlen := flatMap_range_length g m hg a
    by_cases hia : i < a
    · have hlt : i * m + j < ((List.range a).flatMap g).length := by
        rw [hlen]
        calc i * m + j < i * m + m := by omega
          _ = (i + 1) * m := by ring
          _ ≤ a * m := Nat.mul_le_mul_right m hia
      rw [List.getElem?_append_left hlt]
      exact ih hia
    · have hia2 : i = a := by omega
      subst hia2
      have hge : ((List.range i).flatMap g).length ≤ i * m + j := by
        rw [hlen]
        omega
      rw [List.getElem?_append_right hge, hlen]
      simp

theorem candidates_length (A : Args) :
    (candidates A).length = A.Num_alpha.toNat * (A.Num_ell.toNat * A.Num_nu.toNat) := by
  unfold candidates
  apply flatMap_range_length
  intro i
  rw [flatMap_range_length _ A.Num_nu.toNat]
  intro j
  simp

theorem candidates_getElem? (A : Args) (i j k : Nat) (hi : i < A.Num_alpha.toNat)
    (hj : j < A.Num_ell.toNat) (hk : k < A.Num_nu.toNat) :
    (candidates A)[(i * A.Num_ell.toNat + j) * A.Num_nu.toNat + k]?
      = some (A.List_alpha.getD i 0, A.List_ell.getD j 0, A.List_nu.getD k 0) := by
  have hinner : ∀ i, ((List.range A.Num_ell.toNat).flatMap fun j =>
      (List.range A.Num_nu.toNat).map fun k =>
        (A.List_alpha.getD i 0, A.List_ell.getD j 0, A.List_nu.getD k 0)).length
        = A.Num_ell.toNat * A.Num_nu.toNat := by
    intro i
    rw [flatMap_range_length _ A.Num_nu.toNat]
    intro j
    simp
  have hidx : (i * A.Num_ell.toNat + j) * A.Num_nu.toNat + k
      = i * (A.Num_ell.toNat * A.Num_nu.toNat) + (j * A.Num_nu.toNat + k) := by ring
  have hjk : j * A.Num_nu.toNat + k < A.Num_ell.toNat * A.Num_nu.toNat := by
    calc j * A.Num_nu.toNat + k < j * A.Num_nu.toNat + A.Num_nu.toNat := by omega
      _ = (j + 1) * A.Num_nu.toNat := by ring
      _ ≤ A.Num_ell.toNat * A.Num_nu.toNat := Nat.mul_le_mul_right _ hj
  unfold candidates
  rw [hidx, flatMap_range_getElem? _ _ hinner _ i _ hi hjk,
    flatMap_range_getElem? _ A.Num_nu.toNat (by intro j; simp) _ j k hj hk]
  simp [hk]

theorem ListLength_toNat (A : Args) (ha : 0 ≤ A.Num_alpha) (hb : 0 ≤ A.Num_ell)
    (hc : 0 ≤ A.Num_nu) :
    (ListLength A).toNat = A.Num_alpha.toNat * (A.Num_ell.toNat * A.Num_nu.toNat)
      ∧ ListLength A
          = ((A.Num_alpha.toNat * (A.Num_ell.toNat * A.Num_nu.toNat) : Nat) : Int) := by
  have h : ListLength A
      = ((A.Num_alpha.toNat * (A.Num_ell.toNat * A.Num_nu.toNat) : Nat) : Int) := by
    unfold ListLength
    push_cast
    rw [Int.toNat_of_nonneg ha, Int.toNat_of_nonneg hb, Int.toNat_of_nonneg hc]
    ring
  refine ⟨?_, h⟩
  rw [h]
  exact Int.toNat_natCast _

theorem gridSearch_trace (E : Env) (A : Args) (ytrain : List ℚ) (lambda : ℚ) :
    (gridSearch E A ytrain lambda).trace
      = (candidates A).flatMap (fun c =>
          [Event.LogLik ytrain c.1 c.2.1 c.2.2 lambda,
           Event.Printf "MLE_RLCM: Grid search"
             [c.1, c.2.1, c.2.2, E.LogLik ytrain c.1 c.2.1 c.2.2 lambda]]) := by
  rw [gridSearch_eq_foldl, (gridBody_foldl E ytrain lambda (candidates A) (gridInit A)).2.2.1]
  simp [gridInit]

/-- C8: for all non-negative `Num_alpha`, `Num_ell`, `Num_nu` the grid-search
loop stores to the slots `0, 1, ..., ListLength - 1` in this order, each exactly
once and to no other index; the store for `(i, j, k)` is the one at index
`t = (i*Num_ell + j)*Num_nu + k`, which lies below `ListLength`, and puts
`(List_alpha[i], List_ell[j], List_nu[k])` there (lexicographic order, `alpha`
outermost, `nu` innermost); the arrays hold these values when the loop ends,
and `t = ListLength` then. -/
theorem gridSearch_stores (E : Env) (A : Args) (ytrain : List ℚ) (lambda : ℚ)
    (ha : 0 ≤ A.Num_alpha) (hb : 0 ≤ A.Num_ell) (hc : 0 ≤ A.Num_nu) :
    (gridSearch E A ytrain lambda).stores.map Prod.fst = List.range (ListLength A).toNat
      ∧ ((gridSearch E A ytrain lambda).t : Int) = ListLength A
      ∧ (gridSearch E A ytrain lambda).ListParam.length = (ListLength A).toNat
      ∧ (gridSearch E A ytrain lambda).mLogLik.length = (ListLength A).toNat
      ∧ ∀ i j k t : Nat, (i : Int) < A.Num_alpha → (j : Int) < A.Num_ell →
          (k : Int) < A.Num_nu → (t : Int) = ((i : Int) * A.Num_ell + j) * A.Num_nu + k →
          (t : Int) < ListLength A
            ∧ (gridSearch E A ytrain lambda).stores[t]?
                = some (t, [A.List_alpha.getD i 0, A.List_ell.getD j 0, A.List_nu.getD k 0])
            ∧ (gridSearch E A ytrain lambda).ListParam[t]?
                = some [A.List_alpha.getD i 0, A.List_ell.getD j 0, A.List_nu.getD k 0]
            ∧ (gridSearch E A ytrain lambda).mLogLik[t]?
                = some (E.LogLik ytrain (A.List_alpha.getD i 0) (A.List_ell.getD j 0)
                    (A.List_nu.getD k 0) lambda) := by
  obtain ⟨hLn, hLi⟩ := ListLength_toNat A ha hb hc
  have hlen := candidates_length A
  obtain ⟨h1, h2, _, h4, h5⟩ := gridBody_foldl E ytrain lambda (candidates A) (gridInit A)
  rw [← gridSearch_eq_foldl] at h1 h2 h4 h5
  have hstores : (gridSearch E A ytrain lambda).stores
      = (List.range (candidates A).length).map (fun n => (n,
          [((candidates A).getD n (0, 0, 0)).1, ((candidates A).getD n (0, 0, 0)).2.1,
            ((candidates A).getD n (0, 0, 0)).2.2])) := by
    rw [h2]
    simp [gridInit]
  refine ⟨?_, ?_, ?_, ?_, ?_⟩
  · rw [hstores, List.map_map, hLn, hlen]
    exact List.map_id _
  · rw [h1, hLi, hlen]
    simp [gridInit]
  · rw [h4]
    simp [gridInit]
  · rw [h5]
    simp [gridInit]
  · intro i j k t hi hj hk ht
    have hi2 : i < A.Num_alpha.toNat := by omega
    have hj2 : j < A.Num_ell.toNat := by omega
    have hk2 : k < A.Num_nu.toNat := by omega
    have htN : t = (i * A.Num_ell.toNat + j) * A.Num_nu.toNat + k := by
      have : (t : Int) = (((i * A.Num_ell.toNat + j) * A.Num_nu.toNat + k : Nat) : Int) := by
        rw [ht]
        push_cast
        rw [Int.toNat_of_nonneg hb, Int.toNat_of_nonneg hc]
      exact_mod_cast this
    have hcand := candidates_getElem? A i j k hi2 hj2 hk2
    rw [← htN] at hcand
    have htlen : t < (candidates A).length := by
      by_contra hcon
      rw [List.getElem?_eq_none (Nat.le_of_not_lt hcon)] at hcand
      exact Option.noConfusion hcand
    have hgetD : (candidates A).getD t (0, 0, 0)
        = (A.List_alpha.getD i 0, A.List_ell.getD j 0, A.List_nu.getD k 0) := by
      rw [List.getD_eq_getElem?_getD, hcand]
      rfl
    obtain ⟨hP, hL⟩ := gridBody_foldl_arrays E ytrain lambda (candidates A) (gridInit A) t
    rw [← gridSearch_eq_foldl] at hP hL
    have hcond1 : (gridInit A).t ≤ t ∧ t < (gridInit A).t + (candidates A).length
        ∧ t < (gridInit A).ListParam.length := by
      simp only [gridInit, List.length_replicate]
      omega
    have hcond2 : (gridInit A).t ≤ t ∧ t < (gridInit A).t + (candidates A).length
        ∧ t < (gridInit A).mLogLik.length := by
      simp only [gridInit, List.length_replicate]
      omega
    rw [if_pos hcond1] at hP
    rw [if_pos hcond2] at hL
    have ht0 : t - (gridInit A).t = t := by simp [gridInit]
    rw [ht0, hgetD] at hP hL
    refine ⟨?_, ?_, hP, hL⟩
    · rw [hLi, hlen.symm]
      exact_mod_cast htlen
    · rw [hstores, List.getElem?_map, List.getElem?_range htlen]
      simp only [Option.map_some']
      rw [hgetD]

/-- Witness of C8 on the sample `2 x 1 x 2` grid: the four slots are stored to
in order, and the store for `(i, j, k) = (1, 0, 1)` goes to slot `3`. -/
theorem gridSearch_stores_witness :
    0 ≤ sampleArgs.Num_alpha ∧ 0 ≤ sampleArgs.Num_ell ∧ 0 ≤ sampleArgs.Num_nu
      ∧ (gridSearch sampleEnv sampleArgs [10, 30] (-1)).stores.map Prod.fst
          = List.range (ListLength sampleArgs).toNat
      ∧ ((gridSearch sampleEnv sampleArgs [10, 30] (-1)).t : Int) = ListLength sampleArgs
      ∧ (gridSearch sampleEnv sampleArgs [10, 30] (-1)).stores[3]?
          = some (3, [sampleArgs.List_alpha.getD 1 0, sampleArgs.List_ell.getD 0 0,
              sampleArgs.List_nu.getD 1 0]) :=
  ⟨by decide, by decide, by decide,
    (gridSearch_stores sampleEnv sampleArgs [10, 30] (-1) (by decide) (by decide)
      (by decide)).1,
    (gridSearch_stores sampleEnv sampleArgs [10, 30] (-1) (by decide) (by decide)
      (by decide)).2.1,
    ((gridSearch_stores sampleEnv sampleArgs [10, 30] (-1) (by decide) (by decide)
      (by decide)).2.2.2.2 1 0 1 3 (by decide) (by decide) (by decide) (by decide)).2.1⟩

/-! ### The diagonal correction (C5) -/

theorem lambda_append {lam : ℚ} {L1 L2 : List Event}
    (h1 : ∀ e ∈ L1, ∀ l, e.lambda = some l → l = lam)
    (h2 : ∀ e ∈ L2, ∀ l, e.lambda = some l → l = lam) :
    ∀ e ∈ L1 ++ L2, ∀ l, e.lambda = some l → l = lam := by
  intro e he
  rcases List.mem_append.1 he with h | h
  · exact h1 e h
  · exact h2 e h

theorem lambda_ite {lam : ℚ} {L : List Event} (b : Bool)
    (h : ∀ e ∈ L, ∀ l, e.lambda = some l → l = lam) :
    ∀ e ∈ (if b = true then L else []), ∀ l, e.lambda = some l → l = lam := by
  cases b
  · simp
  · simpa using h

theorem lambda_flatMap {lam : ℚ} {α : Type} (xs : List α) (f : α → List Event)
    (h : ∀ x, ∀ e ∈ f x, ∀ l, e.lambda = some l → l = lam) :
    ∀ e ∈ xs.flatMap f, ∀ l, e.lambda = some l → l = lam := by
  intro e he
  obtain ⟨x, _, hx⟩ := List.mem_flatMap.1 he
  exact h x e hx

theorem gridSearch_lambda (E : Env) (A : Args) (ytrain : List ℚ) (lambda : ℚ) :
    ∀ e ∈ (gridSearch E A ytrain lambda).trace, ∀ l, e.lambda = some l → l = lambda := by
  rw [gridSearch_trace]
  apply lambda_flatMap
  intro c
  simp [Event.lambda]

theorem finiteDiff_lambda (E : Env) (ytrain : List ℚ) (lambda : ℚ) (HatParam : List ℚ)
    (MaxLogLik : ℚ) :
    ∀ e ∈ finiteDiff E ytrain lambda HatParam MaxLogLik, ∀ l, e.lambda = some l → l = lambda := by
  unfold finiteDiff
  apply lambda_flatMap
  intro i
  apply lambda_append
  · simp [Event.lambda]
  · apply lambda_flatMap
    intro j
    simp [Event.lambda]

theorem fisher_lambda (E : Env) (A : Args) (ytrain : List ℚ) (lambda : ℚ) (HatParam : List ℚ)
    (MaxLogLik : ℚ) :
    ∀ e ∈ fisher E A ytrain lambda HatParam MaxLogLik, ∀ l, e.lambda = some l → l = lambda := by
  unfold fisher
  apply lambda_append
  · apply lambda_append
    · apply lambda_flatMap
      intro i
      simp [Event.lambda]
    · simp [Event.lambda]
  · apply lambda_ite
    simp [Event.lambda]

/-- Every event of the computation that takes a diagonal correction takes the
value given on the command line. -/
theorem compute_lambda (E : Env) (A : Args) (D : Loaded) :
    ∀ e ∈ compute E A D, ∀ l, e.lambda = some l → l = A.mDiagCorrect := by
  unfold compute
  refine lambda_append (lambda_append (lambda_append (lambda_append (lambda_append
    (lambda_append (lambda_append (lambda_append ?_ ?_) ?_) ?_) ?_) ?_) ?_) ?_) ?_
  · simp [Event.lambda]
  · exact gridSearch_lambda _ _ _ _
  · simp [Event.lambda]
  · apply lambda_ite
    simp [Event.lambda]
  · apply lambda_ite
    exact finiteDiff_lambda _ _ _ _ _
  · apply lambda_ite
    exact fisher_lambda _ _ _ _ _ _
  · simp [Event.lambda]
  · apply lambda_ite
    simp [Event.lambda]
  · apply lambda_ite
    simp [Event.lambda]

theorem compute_mem_BuildTree (E : Env) (A : Args) (D : Loaded) :
    Event.BuildTree A.r (NumLevel D.Ntrain A.r) A.mDiagCorrect (Seed E A) ∈ compute E A D := by
  simp [compute]

theorem compute_mem_LogLik (E : Env) (A : Args) (D : Loaded) (c : ℚ × ℚ × ℚ)
    (hc : c ∈ candidates A) :
    Event.LogLik (ytrain E A D) c.1 c.2.1 c.2.2 A.mDiagCorrect ∈ compute E A D := by
  have : Event.LogLik (ytrain E A D) c.1 c.2.1 c.2.2 A.mDiagCorrect
      ∈ (gridSearch E A (ytrain E A D) A.mDiagCorrect).trace := by
    rw [gridSearch_trace]
    exact List.mem_flatMap.2 ⟨c, hc, by simp⟩
  simp [compute, this]

theorem compute_mem_Train (E : Env) (A : Args) (D : Loaded) :
    Event.Train ((HatParam E A D).getD 0 0) ((HatParam E A D).getD 1 0)
      ((HatParam E A D).getD 2 0) A.mDiagCorrect ∈ compute E A D := by
  simp [compute]

theorem compute_mem_Test (E : Env) (A : Args) (D : Loaded) :
    Event.Test (ytrain E A D) ((HatParam E A D).getD 0 0) ((HatParam E A D).getD 1 0)
      ((HatParam E A D).getD 2 0) A.mDiagCorrect ∈ compute E A D := by
  simp [compute]

/-- C5 (counterexample): the sample command line gives `DiagCorrect = -1 ≤ 0`,
and the run builds the tree with `-1`, evaluates the log-likelihood of the first
candidate with `-1` and trains and tests the kriging with `-1`. -/
theorem main_nonpositive_DiagCorrect :
    sampleArgs.mDiagCorrect = -1 ∧ sampleArgs.mDiagCorrect ≤ 0
      ∧ Event.BuildTree 2 0 (-1) 5 ∈ main sampleEnv sampleArgs sampleData
      ∧ Event.LogLik [10, 30] 1 0 0 (-1) ∈ main sampleEnv sampleArgs sampleData
      ∧ Event.Train 1 0 1 (-1) ∈ main sampleEnv sampleArgs sampleData
      ∧ Event.Test [10, 30] 1 0 1 (-1) ∈ main sampleEnv sampleArgs sampleData := by
  have hN : NumLevel 2 2 = 0 := by norm_num [NumLevel, truncLog2]
  have hy : ytrain sampleEnv sampleArgs sampleData = [10, 30] := by decide
  have hH : HatParam sampleEnv sampleArgs sampleData = [1, 0, 1] := by
    decide
  refine ⟨rfl, by decide, ?_, ?_, ?_, ?_⟩
  · have h := mem_main_of_mem_compute sampleEnv sampleArgs sampleData rfl rfl rfl _
      (compute_mem_BuildTree sampleEnv sampleArgs sampleData)
    have hS : Seed sampleEnv sampleArgs = 5 := by decide
    rw [hS] at h
    simpa [sampleArgs, sampleData, hN] using h
  · have h := mem_main_of_mem_compute sampleEnv sampleArgs sampleData rfl rfl rfl _
      (compute_mem_LogLik sampleEnv sampleArgs sampleData (1, 0, 0) (by decide))
    rw [hy] at h
    exact h
  · have h := mem_main_of_mem_compute sampleEnv sampleArgs sampleData rfl rfl rfl _
      (compute_mem_Train sampleEnv sampleArgs sampleData)
    rw [hH] at h
    exact h
  · have h := mem_main_of_mem_compute sampleEnv sampleArgs sampleData rfl rfl rfl _
      (compute_mem_Test sampleEnv sampleArgs sampleData)
    rw [hH, hy] at h
    exact h

/-- C5 (amended): the driver makes no check on `DiagCorrect`.  For every value
`lambda` given on the command line, positive or not, once the three load checks
pass the tree is built with `lambda`, the log-likelihood of every candidate of
the grid is evaluated with `lambda`, the kriging is trained and tested with
`lambda`, and no event of the run uses any other diagonal correction. -/
theorem main_passes_DiagCorrect (E : Env) (A : Args) (D : Loaded)
    (h1 : D.NumParam = 3) (h2 : (D.y.length : Int) = D.N) (h3 : D.Ntrain + D.Ntest = D.N) :
    Event.BuildTree A.r (NumLevel D.Ntrain A.r) A.mDiagCorrect (Seed E A) ∈ main E A D
      ∧ (∀ c ∈ candidates A,
          Event.LogLik (ytrain E A D) c.1 c.2.1 c.2.2 A.mDiagCorrect ∈ main E A D)
      ∧ Event.Train ((HatParam E A D).getD 0 0) ((HatParam E A D).getD 1 0)
          ((HatParam E A D).getD 2 0) A.mDiagCorrect ∈ main E A D
      ∧ Event.Test (ytrain E A D) ((HatParam E A D).getD 0 0) ((HatParam E A D).getD 1 0)
          ((HatParam E A D).getD 2 0) A.mDiagCorrect ∈ main E A D
      ∧ (∀ e ∈ main E A D, ∀ l, e.lambda = some l → l = A.mDiagCorrect) := by
  refine ⟨mem_main_of_mem_compute E A D h1 h2 h3 _ (compute_mem_BuildTree E A D),
    fun c hc => mem_main_of_mem_compute E A D h1 h2 h3 _ (compute_mem_LogLik E A D c hc),
    mem_main_of_mem_compute E A D h1 h2 h3 _ (compute_mem_Train E A D),
    mem_main_of_mem_compute E A D h1 h2 h3 _ (compute_mem_Test E A D), ?_⟩
  rw [main_eq_compute E A D h1 h2 h3]
  apply lambda_append
  · simp [Event.lambda]
  · exact compute_lambda E A D

/-- Witness of the amended C5 on the sample run. -/
theorem main_passes_DiagCorrect_witness :
    sampleData.NumParam = 3 ∧ (sampleData.y.length : Int) = sampleData.N
      ∧ sampleData.Ntrain + sampleData.Ntest = sampleData.N
      ∧ Event.BuildTree sampleArgs.r (NumLevel sampleData.Ntrain sampleArgs.r)
          sampleArgs.mDiagCorrect (Seed sampleEnv sampleArgs)
            ∈ main sampleEnv sampleArgs sampleData
      ∧ (∀ e ∈ main sampleEnv sampleArgs sampleData, ∀ l, e.lambda = some l →
          l = sampleArgs.mDiagCorrect) :=
  ⟨rfl, rfl, rfl, (main_passes_DiagCorrect sampleEnv sampleArgs sampleData rfl rfl rfl).1,
    (main_passes_DiagCorrect sampleEnv sampleArgs sampleData rfl rfl rfl).2.2.2.2⟩

/-! ### The estimate (C6) -/

theorem EstimatedParam.argmax_succ (n : Nat) (m : List ℚ) :
    EstimatedParam.argmax (n + 1) m
      = if m.getD (EstimatedParam.argmax n m) 0 < m.getD n 0 then n
        else EstimatedParam.argmax n m := by
  simp [EstimatedParam.argmax, List.range_succ, List.foldl_append]

theorem EstimatedParam.argmax_spec (n : Nat) (m : List ℚ) :
    (EstimatedParam.argmax n m < n ∨ (n = 0 ∧ EstimatedParam.argmax n m = 0))
      ∧ (∀ t, t < n → m.getD t 0 ≤ m.getD (EstimatedParam.argmax n m) 0)
      ∧ (∀ t, t < EstimatedParam.argmax n m →
          m.getD t 0 < m.getD (EstimatedParam.argmax n m) 0) := by
  induction n with
  | zero => simp [EstimatedParam.argmax]
  | succ n ih =>
    obtain ⟨h1, h2, h3⟩ := ih
    rw [EstimatedParam.argmax_succ]
    by_cases hlt : m.getD (EstimatedParam.argmax n m) 0 < m.getD n 0
    · rw [if_pos hlt]
      refine ⟨Or.inl (Nat.lt_succ_self n), ?_, ?_⟩
      · intro t ht
        rcases Nat.lt_succ_iff_lt_or_eq.1 ht with h | h
        · exact le_of_lt (lt_of_le_of_lt (h2 t h) hlt)
        · rw [h]
      · intro t ht
        exact lt_of_le_of_lt (h2 t ht) hlt
    · rw [if_neg hlt]
      refine ⟨Or.inl ?_, ?_, h3⟩
      · rcases h1 with h | ⟨_, h⟩ <;> omega
      · intro t ht
        rcases Nat.lt_succ_iff_lt_or_eq.1 ht with h | h
        · exact h2 t h
        · rw [h]
          exact not_lt.1 hlt

/-- C6: for every non-empty candidate list of length `ListLength`, the result
`(HatParam, MaxLogLik)` of the grid search satisfies: `MaxLogLik` is the maximum
of `mLogLik`, and `HatParam` is `ListParam[t]` (its first `NumParam` entries, which
are the whole row when the row has `NumParam` entries) for the smallest index
`t` with `mLogLik[t] = MaxLogLik`. -/
theorem EstimatedParam_spec (NumParam ListLength : Nat) (ListParam : List (List ℚ))
    (mLogLik : List ℚ) (hpos : 0 < ListLength)
    (hP : ListParam.length = ListLength) (hL : mLogLik.length = ListLength) :
    (∀ t, t < ListLength →
        mLogLik.getD t 0 ≤ (EstimatedParam NumParam ListLength ListParam mLogLik).2)
      ∧ ∃ t, t < ListLength
          ∧ mLogLik.getD t 0 = (EstimatedParam NumParam ListLength ListParam mLogLik).2
          ∧ (∀ u, u < ListLength →
              mLogLik.getD u 0 = (EstimatedParam NumParam ListLength ListParam mLogLik).2 →
              t ≤ u)
          ∧ (EstimatedParam NumParam ListLength ListParam mLogLik).1
              = (ListParam.getD t []).take NumParam
          ∧ ((ListParam.getD t []).length ≤ NumParam →
              (EstimatedParam NumParam ListLength ListParam mLogLik).1 = ListParam.getD t []) := by
  obtain ⟨h1, h2, h3⟩ := EstimatedParam.argmax_spec ListLength mLogLik
  have hlt : EstimatedParam.argmax ListLength mLogLik < ListLength := by
    rcases h1 with h | ⟨h, _⟩
    · exact h
    · omega
  refine ⟨h2, EstimatedParam.argmax ListLength mLogLik, hlt, rfl, ?_, rfl, ?_⟩
  · intro u _ hu
    by_contra hcon
    have := h3 u (not_le.1 hcon)
    simp only [EstimatedParam] at hu
    rw [hu] at this
    exact lt_irrefl _ this
  · intro hrow
    simp only [EstimatedParam]
    exact List.take_of_length_le hrow

/-- Witness of C6: four candidates, the largest log-likelihood occurring at
indices `1` and `3`; the estimate is candidate `1`. -/
theorem EstimatedParam_spec_witness :
    0 < 4
      ∧ ([[1, 0, 0], [1, 0, 1], [0, 0, 0], [0, 0, 1]] : List (List ℚ)).length = 4
      ∧ ([0, 1, 0, 1] : List ℚ).length = 4
      ∧ (∀ t, t < 4 → ([0, 1, 0, 1] : List ℚ).getD t 0
          ≤ (EstimatedParam 3 4 [[1, 0, 0], [1, 0, 1], [0, 0, 0], [0, 0, 1]] [0, 1, 0, 1]).2)
      ∧ EstimatedParam 3 4 [[1, 0, 0], [1, 0, 1], [0, 0, 0], [0, 0, 1]] [0, 1, 0, 1]
          = ([1, 0, 1], 1) :=
  ⟨by decide, rfl, rfl,
    (EstimatedParam_spec 3 4 [[1, 0, 0], [1, 0, 1], [0, 0, 0], [0, 0, 1]] [0, 1, 0, 1]
      (by decide) rfl rfl).1,
    by decide⟩

/-! ### The number of levels (C7) -/

theorem log_two_ratCast (q : ℚ) (hq : 0 < q) : Int.log 2 (q : ℝ) = Int.log 2 q := by
  have hqR : (0 : ℝ) < (q : ℝ) := by exact_mod_cast hq
  apply eq_of_forall_le_iff
  intro k
  rw [← Int.zpow_le_iff_le_log (by norm_num) hqR, ← Int.zpow_le_iff_le_log (by norm_num) hq]
  have : (((2 : ℕ) : ℚ) ^ k : ℚ) = (((2 : ℕ) : ℝ) ^ k : ℝ) := by push_cast; rfl
  rw [← this]
  exact_mod_cast Iff.rfl

theorem clog_two_ratCast (q : ℚ) (hq : 0 < q) : Int.clog 2 (q : ℝ) = Int.clog 2 q := by
  have hqR : (0 : ℝ) < (q : ℝ) := by exact_mod_cast hq
  apply eq_of_forall_ge_iff
  intro k
  rw [← Int.le_zpow_iff_clog_le (by norm_num) hqR, ← Int.le_zpow_iff_clog_le (by norm_num) hq]
  have : (((2 : ℕ) : ℚ) ^ k : ℚ) = (((2 : ℕ) : ℝ) ^ k : ℝ) := by push_cast; rfl
  rw [← this]
  exact_mod_cast Iff.rfl

/-- The integer `truncLog2 q` is the real base-2 logarithm of `q` truncated
toward zero: its floor when the logarithm is non-negative, its ceiling
otherwise. -/
theorem truncLog2_eq_trunc_logb (q : ℚ) (hq : 0 < q) :
    truncLog2 q = if 0 ≤ Real.logb 2 (q : ℝ) then ⌊Real.logb 2 (q : ℝ)⌋
                  else ⌈Real.logb 2 (q : ℝ)⌉ := by
  have hqR : (0 : ℝ) < (q : ℝ) := by exact_mod_cast hq
  have hfl := @Real.floor_logb_natCast 2 (q : ℝ) (le_of_lt hqR)
  have hcl := @Real.ceil_logb_natCast 2 (q : ℝ) (le_of_lt hqR)
  simp only [Nat.cast_ofNat] at hfl hcl
  have hiff : 0 ≤ Real.logb 2 (q : ℝ) ↔ 1 ≤ q := by
    rw [Real.le_logb_iff_rpow_le (by norm_num) hqR]
    simp only [Real.rpow_zero]
    exact_mod_cast Iff.rfl
  unfold truncLog2
  by_cases h : 1 ≤ q
  · rw [if_pos h, if_pos (hiff.2 h), hfl, log_two_ratCast q hq]
  · rw [if_neg h, if_neg (fun h2 => h (hiff.1 h2)), hcl, clog_two_ratCast q hq]

theorem truncLog2_of_le_one (q : ℚ) (hq : q ≤ 1) : truncLog2 q = Int.clog 2 q := by
  unfold truncLog2
  split_ifs with h
  · have h1 : q = 1 := le_antisymm hq h
    simp [h1]
  · rfl

/-- C7 (counterexample): with `Ntrain = 1` and `r = 2` the rank is at least the
training size, yet `NumLevel = (INTEGER) log2(0.5) = -1`, not `0`. -/
theorem NumLevel_one_two :
    (0 : Int) < 1 ∧ (1 : Int) ≤ 2 ∧ NumLevel 1 2 = -1 ∧ NumLevel 1 2 ≠ 0 := by
  have h : NumLevel 1 2 = -1 := by
    norm_num [NumLevel, truncLog2, Int.clog, Nat.log]
  refine ⟨by decide, by decide, h, ?_⟩
  rw [h]
  decide

/-- C7 (amended): for every positive `Ntrain` and every rank `r ≥ Ntrain`,
`NumLevel` is `-⌊log2 ⌊r / Ntrain⌋⌋`, which is never positive; it is `0` exactly
when `r < 2 * Ntrain`, and at most `-1` as soon as `r ≥ 2 * Ntrain`. -/
theorem NumLevel_of_rank_ge (Ntrain r : Int) (hN : 0 < Ntrain) (hr : Ntrain ≤ r) :
    NumLevel Ntrain r = -((Nat.log 2 (r / Ntrain).toNat : Nat) : Int)
      ∧ NumLevel Ntrain r ≤ 0
      ∧ (NumLevel Ntrain r = 0 ↔ r < 2 * Ntrain)
      ∧ (2 * Ntrain ≤ r → NumLevel Ntrain r ≤ -1) := by
  have hNq : (0 : ℚ) < (Ntrain : ℚ) := by exact_mod_cast hN
  have hrq : (0 : ℚ) < (r : ℚ) := by exact_mod_cast lt_of_lt_of_le hN hr
  have hq0 : (0 : ℚ) < (Ntrain : ℚ) / (r : ℚ) := div_pos hNq hrq
  have hq1 : (Ntrain : ℚ) / (r : ℚ) ≤ 1 := by
    rw [div_le_one hrq]
    exact_mod_cast hr
  have hE : NumLevel Ntrain r = Int.clog 2 ((Ntrain : ℚ) / (r : ℚ)) :=
    truncLog2_of_le_one _ hq1
  have hle : NumLevel Ntrain r ≤ 0 := by
    rw [hE, ← Int.le_zpow_iff_clog_le (by norm_num) hq0]
    simpa using hq1
  have hm1 : NumLevel Ntrain r ≤ -1 ↔ 2 * Ntrain ≤ r := by
    rw [hE, ← Int.le_zpow_iff_clog_le (by norm_num) hq0]
    rw [div_le_iff₀ hrq]
    constructor
    · intro h
      have h2 : (2 : ℚ) * (Ntrain : ℚ) ≤ (r : ℚ) := by
        have : ((2 : ℕ) : ℚ) ^ (-1 : ℤ) = 1 / 2 := by norm_num
        rw [this] at h
        linarith
      exact_mod_cast h2
    · intro h
      have h2 : (2 : ℚ) * (Ntrain : ℚ) ≤ (r : ℚ) := by exact_mod_cast h
      have : ((2 : ℕ) : ℚ) ^ (-1 : ℤ) = 1 / 2 := by norm_num
      rw [this]
      linarith
  refine ⟨?_, hle, ?_, hm1.2⟩
  · rw [hE, Int.clog_of_right_le_one 2 hq1, inv_div]
    obtain ⟨n, rfl⟩ := Int.eq_ofNat_of_zero_le (le_of_lt hN)
    have hf : ⌊(r : ℚ) / ((n : ℤ) : ℚ)⌋₊ = (r / (n : ℤ)).toNat := by
      rw [← Int.floor_toNat]
      have := Rat.floor_intCast_div_natCast r n
      simp only [Int.cast_natCast]
      rw [this]
    rw [hf]
  · constructor
    · intro h0
      by_contra hcon
      have := hm1.2 (not_lt.1 hcon)
      omega
    · intro hlt
      have : ¬ NumLevel Ntrain r ≤ -1 := fun h => by
        have := hm1.1 h
        omega
      omega

/-- Witness of the amended C7 at `Ntrain = 3`, `r = 4`. -/
theorem NumLevel_of_rank_ge_witness :
    NumLevel 3 4 = -((Nat.log 2 ((4 : Int) / 3).toNat : Nat) : Int)
      ∧ NumLevel 3 4 ≤ 0
      ∧ (NumLevel 3 4 = 0 ↔ (4 : Int) < 2 * 3)
      ∧ (2 * 3 ≤ (4 : Int) → NumLevel 3 4 ≤ -1) :=
  NumLevel_of_rank_ge 3 4 (by decide) (by decide)

/-! ### The finite-difference check (C9) -/

theorem stepSize_pos (j : Nat) : 0 < stepSize j := by
  unfold stepSize
  positivity

theorem stepSize_succ_lt (j : Nat) : stepSize (j + 1) < stepSize j := by
  unfold stepSize
  have h2 : (0 : ℚ) < 2 ^ j := by positivity
  rw [pow_succ]
  apply div_lt_div_of_pos_left (by norm_num) h2
  linarith

theorem hasDerivAt_quadratic (a b c x : ℚ) :
    HasDerivAt (fun t : ℚ => a * t * t + b * t + c) (2 * a * x + b) x := by
  have h1 : HasDerivAt (fun t : ℚ => t) 1 x := hasDerivAt_id x
  have h2 := (((h1.const_mul a).mul h1).add (h1.const_mul b)).add_const c
  convert h2 using 1
  ring

theorem deriv_quadratic (a b c : ℚ) :
    deriv (fun t : ℚ => a * t * t + b * t + c) = fun x => 2 * a * x + b := by
  funext x
  exact (hasDerivAt_quadratic a b c x).deriv

theorem deriv_linear (a b x : ℚ) : deriv (fun t : ℚ => a * t + b) x = a := by
  have h1 : HasDerivAt (fun t : ℚ => t) 1 x := hasDerivAt_id x
  have h2 := (h1.const_mul a).add_const b
  simpa using h2.deriv

/-- The central differences of a one-variable quadratic are its derivatives. -/
theorem central_diff_quadratic (a b c x eps : ℚ) (heps : eps ≠ 0) :
    ((a * (x + eps) * (x + eps) + b * (x + eps) + c)
        - (a * (x + -eps) * (x + -eps) + b * (x + -eps) + c)) / (2 * eps)
        = deriv (fun t : ℚ => a * t * t + b * t + c) x
      ∧ ((a * (x + eps) * (x + eps) + b * (x + eps) + c)
        + (a * (x + -eps) * (x + -eps) + b * (x + -eps) + c)
        - 2 * (a * x * x + b * x + c)) / (eps * eps)
        = deriv (deriv (fun t : ℚ => a * t * t + b * t + c)) x := by
  rw [deriv_quadratic]
  constructor
  · field_simp
    ring
  · rw [deriv_linear]
    field_simp
    ring

theorem finiteDiffRow_alongAxis (L : ℚ → ℚ → ℚ → ℚ) (h0 h1 h2 M : ℚ) (i j : Nat)
    (hi : i < 3) :
    finiteDiffRow L [h0, h1, h2] M i j
      = (stepSize j,
         (alongAxis L h0 h1 h2 i (([h0, h1, h2] : List ℚ).getD i 0 + stepSize j)
            - alongAxis L h0 h1 h2 i (([h0, h1, h2] : List ℚ).getD i 0 + -stepSize j))
           / (2 * stepSize j),
         (alongAxis L h0 h1 h2 i (([h0, h1, h2] : List ℚ).getD i 0 + stepSize j)
            + alongAxis L h0 h1 h2 i (([h0, h1, h2] : List ℚ).getD i 0 + -stepSize j)
            - 2 * M) / (stepSize j * stepSize j)) := by
  interval_cases i <;> simp [finiteDiffRow, CenterParam, alongAxis]

theorem finiteDiff_mem_row (E : Env) (ytrain : List ℚ) (lambda : ℚ) (HatParam : List ℚ)
    (M : ℚ) (i j : Nat) (hi : i < 3) (hj : j < 10) :
    Event.Printf "epsilon, FirstDiff, SecondDiff"
        [(finiteDiffRow (fun a e n => E.LogLik ytrain a e n lambda) HatParam M i j).1,
         (finiteDiffRow (fun a e n => E.LogLik ytrain a e n lambda) HatParam M i j).2.1,
         (finiteDiffRow (fun a e n => E.LogLik ytrain a e n lambda) HatParam M i j).2.2]
      ∈ finiteDiff E ytrain lambda HatParam M := by
  unfold finiteDiff
  refine List.mem_flatMap.2 ⟨i, List.mem_range.2 (by simpa [NUM_PARAM] using hi), ?_⟩
  refine List.mem_append_right _ (List.mem_flatMap.2 ⟨j, List.mem_range.2 hj, ?_⟩)
  simp

theorem quadratic_alongAxis_derivs (c b0 b1 b2 q00 q01 q02 q11 q12 q22 h0 h1 h2 M : ℚ)
    (i j : Nat) (hi : i < 3)
    (hM : M = quadratic c b0 b1 b2 q00 q01 q02 q11 q12 q22 h0 h1 h2) :
    (finiteDiffRow (quadratic c b0 b1 b2 q00 q01 q02 q11 q12 q22) [h0, h1, h2] M i j).2.1
        = deriv (alongAxis (quadratic c b0 b1 b2 q00 q01 q02 q11 q12 q22) h0 h1 h2 i)
            (([h0, h1, h2] : List ℚ).getD i 0)
      ∧ (finiteDiffRow (quadratic c b0 b1 b2 q00 q01 q02 q11 q12 q22) [h0, h1, h2] M i j).2.2
        = deriv (deriv (alongAxis (quadratic c b0 b1 b2 q00 q01 q02 q11 q12 q22) h0 h1 h2 i))
            (([h0, h1, h2] : List ℚ).getD i 0) := by
  have heps : stepSize j ≠ 0 := ne_of_gt (stepSize_pos j)
  rw [finiteDiffRow_alongAxis _ _ _ _ _ _ _ hi]
  interval_cases i
  · have hA : alongAxis (quadratic c b0 b1 b2 q00 q01 q02 q11 q12 q22) h0 h1 h2 0
        = fun t => q00 * t * t + (b0 + q01 * h1 + q02 * h2) * t
            + (c + b1 * h1 + b2 * h2 + q11 * h1 * h1 + q12 * h1 * h2 + q22 * h2 * h2) := by
      funext t
      simp only [alongAxis, quadratic]
      norm_num
      ring
    have hM2 : M = q00 * h0 * h0 + (b0 + q01 * h1 + q02 * h2) * h0
        + (c + b1 * h1 + b2 * h2 + q11 * h1 * h1 + q12 * h1 * h2 + q22 * h2 * h2) := by
      rw [hM, quadratic]
      ring
    simp only [hA, hM2, List.getD_cons_zero]
    exact central_diff_quadratic _ _ _ _ _ heps
  · have hA : alongAxis (quadratic c b0 b1 b2 q00 q01 q02 q11 q12 q22) h0 h1 h2 1
        = fun t => q11 * t * t + (b1 + q01 * h0 + q12 * h2) * t
            + (c + b0 * h0 + b2 * h2 + q00 * h0 * h0 + q02 * h0 * h2 + q22 * h2 * h2) := by
      funext t
      simp only [alongAxis, quadratic]
      norm_num
      ring
    have hM2 : M = q11 * h1 * h1 + (b1 + q01 * h0 + q12 * h2) * h1
        + (c + b0 * h0 + b2 * h2 + q00 * h0 * h0 + q02 * h0 * h2 + q22 * h2 * h2) := by
      rw [hM, quadratic]
      ring
    simp only [hA, hM2, List.getD_cons_succ, List.getD_cons_zero]
    exact central_diff_quadratic _ _ _ _ _ heps
  · have hA : alongAxis (quadratic c b0 b1 b2 q00 q01 q02 q11 q12 q22) h0 h1 h2 2
        = fun t => q22 * t * t + (b2 + q02 * h0 + q12 * h1) * t
            + (c + b0 * h0 + b1 * h1 + q00 * h0 * h0 + q01 * h0 * h1 + q11 * h1 * h1) := by
      funext t
      simp only [alongAxis, quadratic]
      norm_num
      ring
    have hM2 : M = q22 * h2 * h2 + (b2 + q02 * h0 + q12 * h1) * h2
        + (c + b0 * h0 + b1 * h1 + q00 * h0 * h0 + q01 * h0 * h1 + q11 * h1 * h1) := by
      rw [hM, quadratic]
      ring
    simp only [hA, hM2, List.getD_cons_succ, List.getD_cons_zero]
    exact central_diff_quadratic _ _ _ _ _ heps

/-- C9: in the finite-difference check, for each axis `i < 3` and each step
`j < 10` the step size is `epsilon_j = 10^-3 / 2^j`, positive and strictly
decreasing in `j`; `FirstDiff` is `(L(hat + epsilon e_i) - L(hat - epsilon e_i))
/ (2 epsilon)` and `SecondDiff` is `(L(hat + epsilon e_i) + L(hat - epsilon e_i)
- 2 MaxLogLik) / epsilon^2`; for every `L` that is a quadratic polynomial in the
parameters and `MaxLogLik = L(hat)` they are the first and the second partial
derivative of `L` at `hat` along axis `i`; and these three numbers are the row
the driver prints. -/
theorem finiteDiff_spec (L : ℚ → ℚ → ℚ → ℚ) (h0 h1 h2 M : ℚ) (i j : Nat)
    (hi : i < 3) (hj : j < 10) :
    (finiteDiffRow L [h0, h1, h2] M i j).1 = 1 / 1000 / 2 ^ j
      ∧ 0 < (finiteDiffRow L [h0, h1, h2] M i j).1
      ∧ (finiteDiffRow L [h0, h1, h2] M i (j + 1)).1 < (finiteDiffRow L [h0, h1, h2] M i j).1
      ∧ (finiteDiffRow L [h0, h1, h2] M i j).2.1
          = (alongAxis L h0 h1 h2 i (([h0, h1, h2] : List ℚ).getD i 0 + 1 / 1000 / 2 ^ j)
              - alongAxis L h0 h1 h2 i (([h0, h1, h2] : List ℚ).getD i 0 - 1 / 1000 / 2 ^ j))
            / (2 * (1 / 1000 / 2 ^ j))
      ∧ (finiteDiffRow L [h0, h1, h2] M i j).2.2
          = (alongAxis L h0 h1 h2 i (([h0, h1, h2] : List ℚ).getD i 0 + 1 / 1000 / 2 ^ j)
              + alongAxis L h0 h1 h2 i (([h0, h1, h2] : List ℚ).getD i 0 - 1 / 1000 / 2 ^ j)
              - 2 * M)
            / (1 / 1000 / 2 ^ j) ^ 2
      ∧ (∀ c b0 b1 b2 q00 q01 q02 q11 q12 q22 : ℚ,
          L = quadratic c b0 b1 b2 q00 q01 q02 q11 q12 q22 → M = L h0 h1 h2 →
          (finiteDiffRow L [h0, h1, h2] M i j).2.1
              = deriv (alongAxis L h0 h1 h2 i) (([h0, h1, h2] : List ℚ).getD i 0)
            ∧ (finiteDiffRow L [h0, h1, h2] M i j).2.2
              = deriv (deriv (alongAxis L h0 h1 h2 i)) (([h0, h1, h2] : List ℚ).getD i 0))
      ∧ (∀ (E : Env) (ytrain : List ℚ) (lambda : ℚ),
          L = (fun a e n => E.LogLik ytrain a e n lambda) →
          Event.Printf "epsilon, FirstDiff, SecondDiff"
              [(finiteDiffRow L [h0, h1, h2] M i j).1, (finiteDiffRow L [h0, h1, h2] M i j).2.1,
               (finiteDiffRow L [h0, h1, h2] M i j).2.2]
            ∈ finiteDiff E ytrain lambda [h0, h1, h2] M) := by
  have hrow := finiteDiffRow_alongAxis L h0 h1 h2 M i j hi
  have hrow1 := finiteDiffRow_alongAxis L h0 h1 h2 M i (j + 1) hi
  have hstep : stepSize j = 1 / 1000 / 2 ^ j := rfl
  refine ⟨?_, ?_, ?_, ?_, ?_, ?_, ?_⟩
  · rw [hrow]
    exact hstep
  · rw [hrow]
    exact stepSize_pos j
  · rw [hrow, hrow1]
    exact stepSize_succ_lt j
  · rw [hrow, hstep, sub_eq_add_neg (([h0, h1, h2] : List ℚ).getD i 0)]
  · rw [hrow, hstep, sub_eq_add_neg (([h0, h1, h2] : List ℚ).getD i 0), pow_two]
  · intro c b0 b1 b2 q00 q01 q02 q11 q12 q22 hL hM
    subst hL
    exact quadratic_alongAxis_derivs c b0 b1 b2 q00 q01 q02 q11 q12 q22 h0 h1 h2 M i j hi hM
  · intro E ytrain lambda hL
    subst hL
    exact finiteDiff_mem_row E ytrain lambda [h0, h1, h2] M i j hi hj

/-- Witness of C9: the log-likelihood `-(alpha^2 + ell^2 + nu^2)` around the
origin, first axis, first step; the step is `10^-3` and the two differences are
the derivatives `0` and `-2`. -/
theorem finiteDiff_spec_witness :
    0 < 3 ∧ 0 < 10
      ∧ (finiteDiffRow (quadratic 0 0 0 0 (-1) 0 0 (-1) 0 (-1)) [0, 0, 0] 0 0 0).1
          = 1 / 1000 / 2 ^ 0
      ∧ (finiteDiffRow (quadratic 0 0 0 0 (-1) 0 0 (-1) 0 (-1)) [0, 0, 0] 0 0 0).2.1
          = deriv (alongAxis (quadratic 0 0 0 0 (-1) 0 0 (-1) 0 (-1)) 0 0 0 0)
              (([0, 0, 0] : List ℚ).getD 0 0)
      ∧ (finiteDiffRow (quadratic 0 0 0 0 (-1) 0 0 (-1) 0 (-1)) [0, 0, 0] 0 0 0).2.2
          = deriv (deriv (alongAxis (quadratic 0 0 0 0 (-1) 0 0 (-1) 0 (-1)) 0 0 0 0))
              (([0, 0, 0] : List ℚ).getD 0 0)
      ∧ finiteDiffRow (quadratic 0 0 0 0 (-1) 0 0 (-1) 0 (-1)) [0, 0, 0] 0 0 0
          = (1 / 1000, 0, -2) :=
  ⟨by decide, by decide,
    (finiteDiff_spec (quadratic 0 0 0 0 (-1) 0 0 (-1) 0 (-1)) 0 0 0 0 0 0
      (by decide) (by decide)).1,
    ((finiteDiff_spec (quadratic 0 0 0 0 (-1) 0 0 (-1) 0 (-1)) 0 0 0 0 0 0
      (by decide) (by decide)).2.2.2.2.2.1 0 0 0 0 (-1) 0 0 (-1) 0 (-1) rfl
        (by simp [quadratic])).1,
    ((finiteDiff_spec (quadratic 0 0 0 0 (-1) 0 0 (-1) 0 (-1)) 0 0 0 0 0 0
      (by decide) (by decide)).2.2.2.2.2.1 0 0 0 0 (-1) 0 0 (-1) 0 (-1) rfl
        (by simp [quadratic])).2,
    by norm_num [finiteDiffRow, CenterParam, stepSize, quadratic]⟩

/-! ### The kriged random field (C10) -/

/-- The inverse permutation by the identity array changes nothing. -/
theorem iPermute_range (N : Nat) (v : List ℚ) (hv : v.length = N) :
    iPermute (List.range N) N v = v := by
  apply List.ext_getElem
  · simp [iPermute, hv]
  · intro i h1 h2
    have hi : i < N := by simpa [iPermute] using h1
    simp only [iPermute, List.getElem_map, List.getElem_range]
    have hr : (List.range N).getD i 0 = i := by
      rw [List.getD_eq_getElem _ _ (by simpa using hi), List.getElem_range]
    rw [hr, List.getD_eq_getElem _ _ h2]

theorem AssembleY_length (y1 y2 : List ℚ) (Idx1 Idx2 : List Nat) :
    (AssembleY y1 y2 Idx1 Idx2).length = y1.length + y2.length := by
  simp [AssembleY, scatter_length]

/-- The assembled vector at the position of entry `j` of the second vector. -/
theorem AssembleY_second (y1 y2 : List ℚ) (Idx1 Idx2 : List Nat)
    (hinj : ∀ i j, i < y2.length → j < y2.length → Idx2.getD i 0 = Idx2.getD j 0 → i = j)
    (hlt : ∀ j, j < y2.length → Idx2.getD j 0 < y1.length + y2.length)
    (j : Nat) (hj : j < y2.length) :
    (AssembleY y1 y2 Idx1 Idx2)[Idx2.getD j 0]? = some (y2.getD j 0) := by
  unfold AssembleY
  apply scatter_getElem?_of_inj _ _ _ _ hinj _ j hj
  intro i hi
  rw [scatter_length, List.length_replicate]
  exact hlt i hi

/-- The assembled vector at the position of entry `i` of the first vector. -/
theorem AssembleY_first (y1 y2 : List ℚ) (Idx1 Idx2 : List Nat)
    (hinj : ∀ i j, i < y1.length → j < y1.length → Idx1.getD i 0 = Idx1.getD j 0 → i = j)
    (hlt : ∀ i, i < y1.length → Idx1.getD i 0 < y1.length + y2.length)
    (hdisj : ∀ i j, i < y1.length → j < y2.length → Idx2.getD j 0 ≠ Idx1.getD i 0)
    (i : Nat) (hi : i < y1.length) :
    (AssembleY y1 y2 Idx1 Idx2)[Idx1.getD i 0]? = some (y1.getD i 0) := by
  unfold AssembleY
  rw [scatter_getElem?_of_ne _ _ _ _ _ (fun j hj => hdisj i j hi hj)]
  apply scatter_getElem?_of_inj _ _ _ _ hinj _ i hi
  intro k hk
  rw [List.length_replicate]
  exact hlt k hk

/-- C10: assuming that `IdxTrain` and `IdxTest` together list every index of
`[0, N)` exactly once, that `PermXtrain` is a bijection of `[0, Ntrain)` and
that there is one prediction per test point, the kriged random field
`y_all_grid_order` holds at every training index `IdxTrain[i]` the loaded
response `y[IdxTrain[i]]` and at every test index `IdxTest[j]` the prediction
`ytest_predict[j]`; the final `iPermute` by the identity `Perm` changes nothing;
and this is the vector the driver writes when the output is requested. -/
theorem kriged_field_frame (E : Env) (A : Args) (D : Loaded)
    (h1 : D.NumParam = 3) (h2 : (D.y.length : Int) = D.N)
    (h3 : D.Ntrain + D.Ntest = D.N)
    (hTr : (D.IdxTrain.length : Int) = D.Ntrain)
    (hTe : (D.IdxTest.length : Int) = D.Ntest)
    (hpart : (D.IdxTrain ++ D.IdxTest).Perm (List.range D.N.toNat))
    (hX : IsBijection (PermXtrain E A D) D.Ntrain.toNat)
    (hpred : (ytest_predict E A D).length = D.Ntest.toNat) :
    (∀ i, i < D.Ntrain.toNat →
        D.IdxTrain.getD i 0 < D.y.length
          ∧ (y_all_grid_order E A D)[D.IdxTrain.getD i 0]? = D.y[D.IdxTrain.getD i 0]?)
      ∧ (∀ j, j < D.Ntest.toNat →
        D.IdxTest.getD j 0 < D.y.length
          ∧ (y_all_grid_order E A D)[D.IdxTest.getD j 0]? = some ((ytest_predict E A D).getD j 0))
      ∧ y_all_grid_order E A D = y_all E A D
      ∧ (A.OutputKrigedRandomField = true →
          Event.WriteRandomFieldToFile (y_all_grid_order E A D) (HatParam E A D)
            ∈ main E A D) := by
  have hrec := ytrain_recover_order_eq E A D hX
  have hnTr : D.Ntrain.toNat = D.IdxTrain.length := by omega
  have hnTe : D.Ntest.toNat = D.IdxTest.length := by omega
  have hN : D.N.toNat = D.y.length := by omega
  have hsum : D.IdxTrain.length + D.IdxTest.length = D.y.length := by omega
  have hnd : (D.IdxTrain ++ D.IdxTest).Nodup := hpart.nodup_iff.2 (List.nodup_range _)
  have hndTr : D.IdxTrain.Nodup := (List.nodup_append.1 hnd).1
  have hndTe : D.IdxTest.Nodup := (List.nodup_append.1 hnd).2.1
  have hdis : D.IdxTrain.Disjoint D.IdxTest := (List.nodup_append.1 hnd).2.2
  have hmem : ∀ x, x ∈ D.IdxTrain ++ D.IdxTest → x < D.y.length := by
    intro x hx
    have := List.mem_range.1 (hpart.mem_iff.1 hx)
    omega
  have hgTr : ∀ i, i < D.IdxTrain.length → D.IdxTrain.getD i 0 ∈ D.IdxTrain := by
    intro i hi
    rw [List.getD_eq_getElem _ _ hi]
    exact List.getElem_mem _
  have hgTe : ∀ j, j < D.IdxTest.length → D.IdxTest.getD j 0 ∈ D.IdxTest := by
    intro j hj
    rw [List.getD_eq_getElem _ _ hj]
    exact List.getElem_mem _
  have hl1 : (ytrain_recover_order E A D).length = D.IdxTrain.length := by
    rw [hrec, ytrain_extracted, GetBlock_length, hnTr]
  have hl2 : (ytest_predict E A D).length = D.IdxTest.length := by
    rw [hpred, hnTe]
  have hall : (y_all E A D).length = D.N.toNat := by
    rw [y_all, AssembleY_length, hl1, hl2, hN, hsum]
  have hgrid : y_all_grid_order E A D = y_all E A D := by
    unfold y_all_grid_order Perm
    exact iPermute_range _ _ hall
  refine ⟨?_, ?_, hgrid, ?_⟩
  · intro i hi
    have hi2 : i < D.IdxTrain.length := by omega
    have hlt := hmem _ (List.mem_append_left _ (hgTr i hi2))
    refine ⟨hlt, ?_⟩
    rw [hgrid, y_all, AssembleY_first _ _ _ _ (by rw [hl1]; exact getD_inj_of_nodup hndTr)
      (by
        intro k hk
        rw [hl1] at hk
        rw [hl1, hl2, hsum]
        exact hmem _ (List.mem_append_left _ (hgTr k hk)))
      (by
        intro k j hk hj
        rw [hl1] at hk
        rw [hl2] at hj
        intro heq
        exact hdis (hgTr k hk) (heq ▸ hgTe j hj))
      i (by rw [hl1]; exact hi2)]
    rw [hrec, ytrain_extracted, GetBlock, List.getD_eq_getElem?_getD, List.getElem?_map,
      List.getElem?_range hi]
    simp only [Option.map_some', Option.getD_some]
    rw [List.getD_eq_getElem _ _ hlt, List.getElem?_eq_getElem hlt]
  · intro j hj
    have hj2 : j < D.IdxTest.length := by omega
    have hlt := hmem _ (List.mem_append_right _ (hgTe j hj2))
    refine ⟨hlt, ?_⟩
    rw [hgrid, y_all]
    exact AssembleY_second _ _ _ _ (by rw [hl2]; exact getD_inj_of_nodup hndTe)
      (by
        intro k hk
        rw [hl2] at hk
        rw [hl1, hl2, hsum]
        exact hmem _ (List.mem_append_right _ (hgTe k hk)))
      j (by rw [hl2]; exact hj2)
  · intro hout
    simp [main, NUM_PARAM, h1, h2, h3, compute, hout]

/-- Witness of C10 on the sample run: training indices `2, 0`, test index `1`,
prediction `7`; the written field is `(10, 7, 30)`. -/
theorem kriged_field_frame_witness :
    (sampleData.IdxTrain ++ sampleData.IdxTest).Perm (List.range sampleData.N.toNat)
      ∧ IsBijection (PermXtrain sampleEnv sampleArgs sampleData) sampleData.Ntrain.toNat
      ∧ (ytest_predict sampleEnv sampleArgs sampleData).length = sampleData.Ntest.toNat
      ∧ y_all_grid_order sampleEnv sampleArgs sampleData
          = y_all sampleEnv sampleArgs sampleData
      ∧ Event.WriteRandomFieldToFile (y_all_grid_order sampleEnv sampleArgs sampleData)
          (HatParam sampleEnv sampleArgs sampleData) ∈ main sampleEnv sampleArgs sampleData
      ∧ y_all_grid_order sampleEnv sampleArgs sampleData = [10, 7, 30] :=
  ⟨by decide, by decide, rfl,
    (kriged_field_frame sampleEnv sampleArgs sampleData rfl rfl rfl rfl rfl (by decide)
      (by decide) rfl).2.2.1,
    (kriged_field_frame sampleEnv sampleArgs sampleData rfl rfl rfl rfl rfl (by decide)
      (by decide) rfl).2.2.2 rfl,
    by decide⟩

end RLCM
